import Mathlib

/-!
# Particle and ribbon simulation of `src/noggit/Particle.cpp`

A shallow embedding of the constructor of `ParticleSystem`,
`ParticleSystem::update`, `ParticleSystem::draw`, `lifeRamp` and
`RibbonEmitter::setup`.

Conventions of the embedding:

* `float` values are exact rationals (`ℚ`); rounding, infinities and NaN are
  outside the model.
* `int` is a 32-bit two's complement integer, `size_t` is a 64-bit unsigned
  integer; every conversion between them is written out with an explicit
  modulus.
* The values that `AnimatedValue::getValue` returns during one tick, the
  particles that the emitter produces and the bone transform are inputs of the
  tick (`Sample`, `Anchor`).
* An operation on which C++ puts no defined result (incrementing an iterator
  after `erase`, indexing a vector past its end, `*begin()` of an empty list)
  yields `none`.
-/

namespace Noggit

/-! ## Vectors -/

/-- Two-component vector (`math::vector_2d`). -/
structure Vec2 where
  x : ℚ
  y : ℚ
deriving DecidableEq

/-- Three-component vector (`math::vector_3d`). -/
structure Vec3 where
  x : ℚ
  y : ℚ
  z : ℚ
deriving DecidableEq

/-- Four-component vector (`math::vector_4d`), used for RGBA colours. -/
structure Vec4 where
  x : ℚ
  y : ℚ
  z : ℚ
  w : ℚ
deriving DecidableEq

instance : Add Vec3 := ⟨fun a b => ⟨a.x + b.x, a.y + b.y, a.z + b.z⟩⟩
instance : Sub Vec3 := ⟨fun a b => ⟨a.x - b.x, a.y - b.y, a.z - b.z⟩⟩
instance : HMul Vec3 ℚ Vec3 := ⟨fun a k => ⟨a.x * k, a.y * k, a.z * k⟩⟩

instance : Add Vec4 := ⟨fun a b => ⟨a.x + b.x, a.y + b.y, a.z + b.z, a.w + b.w⟩⟩
instance : HMul Vec4 ℚ Vec4 := ⟨fun a k => ⟨a.x * k, a.y * k, a.z * k, a.w * k⟩⟩

/-- Modelled from the spec: `math::vector_3d::length` is declared outside
`Particle.cpp`; it is the Euclidean length. Over the rationals the square root is
`Rat.sqrt`, which is exact whenever the squared length is the square of a
rational. -/
def Vec3.length (v : Vec3) : ℚ := Rat.sqrt (v.x * v.x + v.y * v.y + v.z * v.z)

/-- Modelled from the spec: `math::vector_3d::normalize` is declared outside
`Particle.cpp`; it scales the vector by the inverse of its length. -/
def Vec3.normalize (v : Vec3) : Vec3 := v * (1 / v.length)

/-! ## Machine integers -/

/-- The constant `MAX_PARTICLES`. -/
def MAX_PARTICLES : Nat := 10000

/-- Number of values of a `size_t`. -/
def SIZE_T_MOD : Nat := 2 ^ 64

/-- Conversion of an `int` to `size_t`. -/
def toSizeT (z : Int) : Nat := (z % (2 ^ 64 : Int)).toNat

/-- Conversion of an integer value to `int`: reduction to the signed 32-bit range. -/
def toInt32 (z : Int) : Int := (z + 2 ^ 31) % 2 ^ 32 - 2 ^ 31

/-- The cast `(int)x` of a float: truncation toward zero when the truncated
value fits an `int`. Outside that range C++ leaves the result open; `oor x`
stands for the value the machine produces there, reduced to 32 bits. -/
def floatToInt (oor : ℚ → Int) (x : ℚ) : Int :=
  if -(2 ^ 31 : ℚ) - 1 < x ∧ x < 2 ^ 31 then
    (if 0 ≤ x then ⌊x⌋ else ⌈x⌉)
  else toInt32 (oor x)

/-! ## Particles and the particle system -/

/-- The struct `Particle`. -/
structure Particle where
  pos : Vec3
  speed : Vec3
  down : Vec3
  origin : Vec3
  dir : Vec3
  corners : Vec3 × Vec3 × Vec3 × Vec3
  size : ℚ
  life : ℚ
  maxlife : ℚ
  tile : Nat
  color : Vec4
deriving DecidableEq

/-- The struct `TexCoordSet`: the four texture coordinates of one atlas tile. -/
structure TexCoordSet where
  tc0 : Vec2
  tc1 : Vec2
  tc2 : Vec2
  tc3 : Vec2
deriving DecidableEq

/-- The two emitter implementations. -/
inductive EmitterKind where
  | plane
  | sphere
deriving DecidableEq

/-- The fields of `ParticleSystem` read or written by `update` and `draw`. -/
structure ParticleSystem where
  emitter : Option EmitterKind
  mid : ℚ
  slowdown : ℚ
  sizes : ℚ × ℚ × ℚ
  colors : Vec4 × Vec4 × Vec4
  type : Int
  billboard : Bool
  tiles : List TexCoordSet
  rem : ℚ
  particles : List Particle
deriving DecidableEq

/-- What one call of `update` obtains from outside the system: the sampled
animated values, the particles built by `emitter->newParticle` (in call order),
`expf`, and the result of an out-of-range float to `int` cast. -/
structure Sample where
  grav : ℚ
  deaccel : ℚ
  frate : ℚ
  flife : ℚ
  enabledUses : Bool
  enabledValue : Int
  emitted : Nat → Particle
  expf : ℚ → ℚ
  oor : ℚ → Int

/-! ## The constructor of ParticleSystem -/

/-- The fields of `ModelParticleEmitterDef` (declared outside `Particle.cpp`)
that the constructor reads, together with the key blocks it copies from the file
buffer at `p.colors.ofsKeys`, `p.opacity.ofsKeys` and `p.sizes.ofsKeys`. -/
structure ModelParticleEmitterDef where
  EmitterType : Int
  ParticleType : Int
  rows : Int
  cols : Int
  flags : Nat
  slowdown : ℚ
  colorKeys : Vec3 × Vec3 × Vec3
  opacityKeys : Int × Int × Int
  sizeKeys : ℚ × ℚ × ℚ
  scales : ℚ × ℚ × ℚ

/-- The exception thrown by the constructor:
`std::logic_error ("unimplemented emitter type")`. -/
inductive ConstructError where
  | unimplementedEmitterType
deriving DecidableEq

/-- The method `ParticleSystem::initTile` for tile `num`: entry `k` of the
result is `otc[i]` for the `i` with `(i + 4 - order) & 3 = k`, that is
`i = (k + order) mod 4`. -/
def initTile (rows cols order num : Int) : TexCoordSet :=
  let x : Int := Int.tmod num cols
  let y : Int := Int.tdiv num cols
  let a : Vec2 := ⟨(x : ℚ) * (1 / (cols : ℚ)), (y : ℚ) * (1 / (rows : ℚ))⟩
  let b : Vec2 := ⟨((x + 1 : Int) : ℚ) * (1 / (cols : ℚ)), ((y + 1 : Int) : ℚ) * (1 / (rows : ℚ))⟩
  let otc : Int → Vec2 := fun i =>
    if i = 0 then a else if i = 1 then ⟨b.x, a.y⟩ else if i = 2 then b else ⟨a.x, b.y⟩
  { tc0 := otc ((0 + order) % 4), tc1 := otc ((1 + order) % 4)
    tc2 := otc ((2 + order) % 4), tc3 := otc ((3 + order) % 4) }

/-- The ramp colour `colors[i]` built by the constructor from a colour key and
an opacity key. -/
def rampColor (c : Vec3) (opacity : Int) : Vec4 :=
  ⟨c.x / 255, c.y / 255, c.z / 255, (opacity : ℚ) / 32767⟩

/-- The members that the constructor sets once the emitter has been chosen:
`mid (0.5)`, `slowdown`, `order`, `type`, `billboard`, `rem(0)`, the ramp
points and the tile table filled by the loop `for (i = 0; i < rows*cols; ++i)`. -/
def constructed (mta : ModelParticleEmitterDef) (k : EmitterKind) : ParticleSystem :=
  let order : Int := if mta.ParticleType > 0 then -1 else 0
  { emitter := some k
    mid := 1 / 2
    slowdown := mta.slowdown
    sizes := (mta.sizeKeys.1 * mta.scales.1, mta.sizeKeys.2.1 * mta.scales.2.1,
      mta.sizeKeys.2.2 * mta.scales.2.2)
    colors := (rampColor mta.colorKeys.1 mta.opacityKeys.1,
      rampColor mta.colorKeys.2.1 mta.opacityKeys.2.1,
      rampColor mta.colorKeys.2.2 mta.opacityKeys.2.2)
    type := mta.ParticleType
    billboard := !(mta.flags.testBit 12)
    tiles := (List.range (toInt32 (mta.rows * mta.cols)).toNat).map
      (fun (i : Nat) => initTile mta.rows mta.cols order (Int.ofNat i))
    rem := 0
    particles := [] }

/-- The constructor `ParticleSystem::ParticleSystem`: the emitter is chosen
from `mta.EmitterType`, and any value other than 1 and 2 throws. -/
def ParticleSystem.construct (mta : ModelParticleEmitterDef) :
    Except ConstructError ParticleSystem :=
  if mta.EmitterType = 1 then Except.ok (constructed mta EmitterKind.plane)
  else if mta.EmitterType = 2 then Except.ok (constructed mta EmitterKind.sphere)
  else Except.error ConstructError.unimplementedEmitterType

/-! ## lifeRamp -/

/-- Modelled from the spec: `math::interpolation::linear` is declared outside
`Particle.cpp`; it interpolates linearly from `a` (at 0) to `b` (at 1). -/
def linear {T : Type} [Add T] [HMul T ℚ T] (t : ℚ) (a b : T) : T :=
  a * (1 - t) + b * t

/-- The template function `lifeRamp`. -/
def lifeRamp {T : Type} [Add T] [HMul T ℚ T] (life mid : ℚ) (a b c : T) : T :=
  if life ≤ mid then linear (life / mid) a b
  else linear ((life - mid) / (1 - mid)) b c

/-! ## ParticleSystem::update -/

/-- The particle returned by the `i`-th call of `emitter->newParticle` in a
tick: both emitters end with `p.life = 0`, `p.maxlife = lifespan`,
`p.origin = p.pos`. -/
def newParticle (e : Sample) (i : Nat) : Particle :=
  let p := e.emitted i
  { p with life := 0, maxlife := e.flife, origin := p.pos }

/-- The value `ftospawn` of `update`. -/
def ftospawn (e : Sample) (s : ParticleSystem) (dt : ℚ) : ℚ :=
  dt * e.frate / e.flife + s.rem

/-- The value of `tospawn` after the `MAX_PARTICLES` check of `update`:
`(int)ftospawn`, replaced by `particles.size() - MAX_PARTICLES` (computed in
`size_t`, converted to `int`) when `tospawn + particles.size()` (computed in
`size_t`) exceeds `MAX_PARTICLES`. -/
def tospawn (e : Sample) (s : ParticleSystem) (dt : ℚ) : Int :=
  let t : Int := floatToInt e.oor (ftospawn e s dt)
  if (toSizeT t + s.particles.length) % SIZE_T_MOD > MAX_PARTICLES then
    toInt32 (((s.particles.length % SIZE_T_MOD + SIZE_T_MOD - MAX_PARTICLES) % SIZE_T_MOD : Nat) : Int)
  else t

/-- The flag `en` of `update`. -/
def enabledNow (e : Sample) : Bool :=
  if e.enabledUses then e.enabledValue != 0 else true

/-- The first half of `update`: the block "spawn new particles". -/
def spawn (e : Sample) (s : ParticleSystem) (dt : ℚ) : ParticleSystem :=
  if s.emitter.isSome then
    if ftospawn e s dt < 1 then
      { s with rem := if ftospawn e s dt < 0 then 0 else ftospawn e s dt }
    else
      { s with
        rem := ftospawn e s dt - (tospawn e s dt : ℚ)
        particles :=
          if enabledNow e then
            s.particles ++ (List.range (tospawn e s dt).toNat).map (newParticle e)
          else s.particles }
  else s

/-- One pass of the body of the particle loop of `update`, up to the test
`rlife >= 1.0f`: the particle after integration and ramp evaluation. -/
def advance (e : Sample) (s : ParticleSystem) (dt : ℚ) (p : Particle) : Particle :=
  let speed := p.speed + (p.down * e.grav * dt - p.dir * e.deaccel * dt)
  let mspeed : ℚ := if s.slowdown > 0 then e.expf (-1 * s.slowdown * p.life) else 1
  let life := p.life + dt
  let rlife := life / p.maxlife
  { p with
    speed := speed
    pos := p.pos + speed * mspeed * dt
    life := life
    size := lifeRamp rlife s.mid s.sizes.1 s.sizes.2.1 s.sizes.2.2
    color := lifeRamp rlife s.mid s.colors.1 s.colors.2.1 s.colors.2.2 }

/-- The lifetime fraction `rlife` of a particle. -/
def rlife (p : Particle) : ℚ := p.life / p.maxlife

/-- The particle loop of `update`. A particle with `rlife >= 1` is erased and
the erased iterator is then incremented (`particles.erase(it); ++it;`), which
has no defined result. -/
def integrate (e : Sample) (s : ParticleSystem) (dt : ℚ) :
    List Particle → Option (List Particle)
  | [] => some []
  | p :: rest =>
    if rlife (advance e s dt p) ≥ 1 then none
    else (integrate e s dt rest).map (fun ps => advance e s dt p :: ps)

/-- The method `ParticleSystem::update`. -/
def update (e : Sample) (s : ParticleSystem) (dt : ℚ) : Option ParticleSystem :=
  (integrate e s dt (spawn e s dt).particles).map
    (fun ps => { spawn e s dt with particles := ps })

/-- Number of particles pushed by the spawn block of one `update`. -/
def spawned (e : Sample) (s : ParticleSystem) (dt : ℚ) : Nat :=
  (spawn e s dt).particles.length - s.particles.length

/-- Consecutive calls of `update` with the same `dt`, one per sample, together
with the total number of particles pushed by the spawn blocks. -/
def updateRun (dt : ℚ) : List Sample → ParticleSystem → Option (Nat × ParticleSystem)
  | [], s => some (0, s)
  | e :: es, s =>
    match update e s dt with
    | none => none
    | some s1 =>
      match updateRun dt es s1 with
      | none => none
      | some (k, s2) => some (spawned e s dt + k, s2)

/-- Consecutive calls of `update(0)`, one per sample. -/
def updateZero : List Sample → ParticleSystem → Option ParticleSystem
  | [], s => some s
  | e :: es, s =>
    match update e s 0 with
    | none => none
    | some s1 => updateZero es s1

/-! ## ParticleSystem::draw -/

/-- One vertex issued to the renderer: `texCoord2fv` followed by `vertex3fv`. -/
structure Vertex where
  tc : Vec2
  pos : Vec3
deriving DecidableEq

/-- One quad issued to the renderer: `color4fv` followed by four vertices. -/
structure Quad where
  color : Vec4
  v0 : Vertex
  v1 : Vertex
  v2 : Vertex
  v3 : Vertex
deriving DecidableEq

/-- The vectors `vRight` and `vUp` of `draw`; `modelview` is the matrix read
from the graphics context. -/
def billboardAxes (s : ParticleSystem) (modelview : Nat → ℚ) : Vec3 × Vec3 :=
  if s.billboard then
    (⟨modelview 0, modelview 4, modelview 8⟩, ⟨modelview 1, modelview 5, modelview 9⟩)
  else (⟨1, 0, 0⟩, ⟨0, 1, 0⟩)

/-- The four vertices issued for one particle by the billboard loop of `draw`
(type 0 or 2). -/
def quadBillboard (vRight vUp : Vec3) (p : Particle) (t : TexCoordSet) : Quad :=
  { color := p.color
    v0 := ⟨t.tc0, p.pos - (vRight + vUp) * p.size⟩
    v1 := ⟨t.tc1, p.pos + (vRight - vUp) * p.size⟩
    v2 := ⟨t.tc2, p.pos + (vRight + vUp) * p.size⟩
    v3 := ⟨t.tc3, p.pos - (vRight - vUp) * p.size⟩ }

/-- The four vertices issued for one particle by the non-billboard loop of
`draw` (type 0 or 2). -/
def quadCorners (p : Particle) (t : TexCoordSet) : Quad :=
  { color := p.color
    v0 := ⟨t.tc0, p.pos + p.corners.1 * p.size⟩
    v1 := ⟨t.tc1, p.pos + p.corners.2.1 * p.size⟩
    v2 := ⟨t.tc2, p.pos + p.corners.2.2.1 * p.size⟩
    v3 := ⟨t.tc3, p.pos + p.corners.2.2.2 * p.size⟩ }

/-- The four vertices issued for one particle by the type 1 loop of `draw`,
with `bv0 = (-1, 1, 0)` and `bv1 = (1, 1, 0)`. -/
def quadStretch (p : Particle) (t : TexCoordSet) : Quad :=
  { color := p.color
    v0 := ⟨t.tc0, p.pos + (⟨-1, 1, 0⟩ : Vec3) * p.size⟩
    v1 := ⟨t.tc1, p.pos + (⟨1, 1, 0⟩ : Vec3) * p.size⟩
    v2 := ⟨t.tc2, p.origin + (⟨1, 1, 0⟩ : Vec3) * p.size⟩
    v3 := ⟨t.tc3, p.origin + (⟨-1, 1, 0⟩ : Vec3) * p.size⟩ }

/-- The quad that `draw` builds for a particle, by render type and billboard
flag; `none` for a render type other than 0, 1, 2, for which `draw` has no loop. -/
def quadOf (s : ParticleSystem) (modelview : Nat → ℚ) :
    Option (Particle → TexCoordSet → Quad) :=
  if s.type = 0 ∨ s.type = 2 then
    if s.billboard then
      some (quadBillboard (billboardAxes s modelview).1 (billboardAxes s modelview).2)
    else some quadCorners
  else if s.type = 1 then some quadStretch
  else none

/-- Each of the three particle loops of `draw`: the guard
`if (tiles.size() - 1 < it->tile) break;` (the subtraction is done in `size_t`),
then the reads `tiles[it->tile]`, which have no defined result past the end of
the table. -/
def drawLoop (tiles : List TexCoordSet) (quad : Particle → TexCoordSet → Quad) :
    List Particle → Option (List Quad)
  | [] => some []
  | p :: rest =>
    if (tiles.length % SIZE_T_MOD + SIZE_T_MOD - 1) % SIZE_T_MOD < p.tile then some []
    else
      match tiles.get? p.tile with
      | none => none
      | some t => (drawLoop tiles quad rest).map (fun qs => quad p t :: qs)

/-- The method `ParticleSystem::draw`, as the list of quads it issues. -/
def draw (s : ParticleSystem) (modelview : Nat → ℚ) : Option (List Quad) :=
  match quadOf s modelview with
  | none => some []
  | some quad => drawLoop s.tiles quad s.particles

/-- The particles that precede the first particle of the pool whose tile index
is not below the size of the tile table. -/
def drawn (s : ParticleSystem) : List Particle :=
  s.particles.takeWhile (fun p => decide (p.tile < s.tiles.length))

/-- A tile with the texture coordinates of the unit square. -/
def unitTile : TexCoordSet :=
  { tc0 := ⟨0, 0⟩, tc1 := ⟨1, 0⟩, tc2 := ⟨1, 1⟩, tc3 := ⟨0, 1⟩ }

/-! ## RibbonEmitter -/

/-- The struct `RibbonSegment`. -/
structure RibbonSegment where
  pos : Vec3
  up : Vec3
  back : Vec3
  len : ℚ
  len0 : ℚ
deriving DecidableEq

/-- Modelled from the spec: the constructor `RibbonSegment (pos, len)` is
declared outside `Particle.cpp`; it sets `pos` and `len`, the other fields are
not given a value (zero here). -/
def RibbonSegment.make (pos : Vec3) (len : ℚ) : RibbonSegment :=
  { pos := pos, up := ⟨0, 0, 0⟩, back := ⟨0, 0, 0⟩, len := len, len0 := 0 }

/-- The fields of `RibbonEmitter` read or written by the constructor and `setup`. -/
structure RibbonEmitter where
  pos : Vec3
  seglen : ℚ
  length : ℚ
  tpos : Vec3
  segs : List RibbonSegment
  tcolor : Vec4
  tabove : ℚ
  tbelow : ℚ
  manim : Int
  mtime : Int
deriving DecidableEq

/-- What one call of `setup` obtains from outside the emitter: the bone
transform `parent->mat` (as a map on points), the arguments `anim` and `time`,
and the sampled colour, opacity, above and below. -/
structure Anchor where
  mat : Vec3 → Vec3
  anim : Int
  time : Int
  color : Vec3
  opacity : ℚ
  above : ℚ
  below : ℚ

/-- The constructor of `RibbonEmitter`: `pos` is `fixCoordSystem(mta.pos)`,
`mtaLength` is `mta.length`, `mtaRes` is `mta.res`; the members not set by the
constructor are zero here. -/
def RibbonEmitter.init (pos : Vec3) (mtaLength mtaRes : ℚ) : RibbonEmitter :=
  { pos := pos
    seglen := mtaLength
    length := mtaRes * mtaLength
    tpos := pos
    segs := [RibbonSegment.make pos 0]
    tcolor := ⟨0, 0, 0, 0⟩
    tabove := 0
    tbelow := 0
    manim := 0
    mtime := 0 }

/-- The loop "kill stuff from the end" of `setup`, from a running total `l` and
the flag `erasemode`. In erase mode the segment is erased and the erased
iterator is then incremented (`segs.erase(it); ++it;`), which has no defined
result for a `std::list`. -/
def trimLoop (length : ℚ) : ℚ → Bool → List RibbonSegment → Option (List RibbonSegment)
  | _, _, [] => some []
  | l, false, seg :: rest =>
    if l + seg.len > length then
      (trimLoop length (l + seg.len) true rest).map
        (fun segs => { seg with len := l + seg.len - length } :: segs)
    else
      (trimLoop length (l + seg.len) false rest).map (fun segs => seg :: segs)
  | _, true, _ :: _ => none

/-- The block "move first segment" of `setup`, on a chain `first :: rest`. -/
def moveFirst (seglen : ℚ) (tpos ntpos ntup : Vec3) (dlen : ℚ)
    (first : RibbonSegment) (rest : List RibbonSegment) : List RibbonSegment :=
  if first.len > seglen then
    { RibbonSegment.make ntpos dlen with up := ntup }
      :: { first with back := (tpos - ntpos).normalize, len0 := first.len } :: rest
  else
    { first with up := ntup, pos := ntpos, len := first.len + dlen } :: rest

/-- The method `RibbonEmitter::setup`. -/
def RibbonEmitter.setup (r : RibbonEmitter) (a : Anchor) : Option RibbonEmitter :=
  let ntpos := a.mat r.pos
  let ntup := (a.mat (r.pos + ⟨0, 0, 1⟩) - ntpos).normalize
  let dlen := (ntpos - r.tpos).length
  match r.segs with
  | [] => none
  | first :: rest =>
    (trimLoop r.length 0 false (moveFirst r.seglen r.tpos ntpos ntup dlen first rest)).map
      (fun segs =>
        { r with
          manim := a.anim
          mtime := a.time
          segs := segs
          tpos := ntpos
          tcolor := ⟨a.color.x, a.color.y, a.color.z, a.opacity⟩
          tabove := a.above
          tbelow := a.below })

/-- Consecutive calls of `setup`, one per anchor state. -/
def RibbonEmitter.run : RibbonEmitter → List Anchor → Option RibbonEmitter
  | r, [] => some r
  | r, a :: rest =>
    match r.setup a with
    | none => none
    | some r1 => r1.run rest

/-- Sum of `len` over a chain. -/
def chainLength (segs : List RibbonSegment) : ℚ := (segs.map (fun g => g.len)).sum

/-- The bone transform of an anchor that has moved by `shift` (a translation). -/
def translated (shift : Vec3) : Anchor :=
  { mat := fun q => q + shift, anim := 0, time := 0
    color := ⟨0, 0, 0⟩, opacity := 0, above := 0, below := 0 }

/-- The anchor states of an anchor that is moved to `u * t` for each path
position `t` of a list. -/
def path (u : Vec3) (ts : List ℚ) : List Anchor :=
  ts.map (fun t => translated (u * t))

/-- The path positions after each of `n` ticks of `dt` seconds at `v` units per
second: `v dt`, `2 v dt`, ..., `n v dt`. -/
def ticks (v dt : ℚ) (n : Nat) : List ℚ :=
  (List.range n).map (fun k => v * (dt * ((k : ℚ) + 1)))

/-! ### The chain seen on its segment lengths

`trimLoop`, `moveFirst` and `setup` read and write the `len` fields without
looking at the other fields of a segment; the next definitions are their
projections on the list of `len` values. -/

/-- The projection of `trimLoop`. -/
def trimLens (length : ℚ) : ℚ → Bool → List ℚ → Option (List ℚ)
  | _, _, [] => some []
  | l, false, x :: rest =>
    if l + x > length then
      (trimLens length (l + x) true rest).map (fun ls => (l + x - length) :: ls)
    else
      (trimLens length (l + x) false rest).map (fun ls => x :: ls)
  | _, true, _ :: _ => none

/-- The projection of `moveFirst`, for an anchor displacement of length `d`. -/
def moveLens (seglen d first : ℚ) (rest : List ℚ) : List ℚ :=
  if first > seglen then d :: first :: rest else (first + d) :: rest

/-- The projection of `setup`, for an anchor displacement of length `d`. -/
def setupLens (seglen length d : ℚ) : List ℚ → Option (List ℚ)
  | [] => none
  | first :: rest => trimLens length 0 false (moveLens seglen d first rest)

/-- The projection of `RibbonEmitter.run` along a straight path: the anchor is
at path position `t0` and moves on to the positions of the list. -/
def runLens (seglen length : ℚ) : ℚ → List ℚ → List ℚ → Option (List ℚ)
  | _, [], ls => some ls
  | t0, t :: ts, ls =>
    match setupLens seglen length |t - t0| ls with
    | none => none
    | some ls1 => runLens seglen length t ts ls1

/-- The same run with the trimming loop left out. -/
def runFree (seglen : ℚ) : ℚ → List ℚ → List ℚ → List ℚ
  | _, [], ls => ls
  | _, _ :: _, [] => []
  | t0, t :: ts, first :: rest => runFree seglen t ts (moveLens seglen |t - t0| first rest)

/-- The distance travelled along a path from position `t0` through the
positions of the list. -/
def travel : ℚ → List ℚ → ℚ
  | _, [] => 0
  | t0, t :: ts => |t - t0| + travel t ts

/-! ## Concrete inputs -/

/-- A particle at rest at the origin with the given life, maxlife and tile. -/
def particleOf (life maxlife : ℚ) (tile : Nat) : Particle :=
  { pos := ⟨0, 0, 0⟩, speed := ⟨0, 0, 0⟩, down := ⟨0, -1, 0⟩, origin := ⟨0, 0, 0⟩
    dir := ⟨0, 1, 0⟩, corners := (⟨0, 0, 0⟩, ⟨0, 0, 0⟩, ⟨0, 0, 0⟩, ⟨0, 0, 0⟩)
    size := 0, life := life, maxlife := maxlife, tile := tile, color := ⟨0, 0, 0, 0⟩ }

/-- A tick with the given emission rate and lifespan, no gravity, no animated
`enabled` track, an emitter that builds particles at rest, and an out-of-range
cast that produces the smallest `int`. -/
def sampleOf (frate flife : ℚ) : Sample :=
  { grav := 0, deaccel := 0, frate := frate, flife := flife
    enabledUses := false, enabledValue := 0
    emitted := fun _ => particleOf 0 0 0
    expf := fun _ => 1
    oor := fun _ => -(2 ^ 31) }

/-- A billboarded system of render type 0 with a plane emitter, `mid = 0.5`,
sizes `[1, 5, 1]`, no slowdown, and the given accumulator, tile table and pool. -/
def systemOf (rem : ℚ) (tiles : List TexCoordSet) (ps : List Particle) : ParticleSystem :=
  { emitter := some EmitterKind.plane, mid := 1 / 2, slowdown := 0
    sizes := (1, 5, 1)
    colors := (⟨0, 0, 0, 0⟩, ⟨0, 0, 0, 0⟩, ⟨0, 0, 0, 0⟩)
    type := 0, billboard := true, tiles := tiles, rem := rem, particles := ps }

/-- The cap is not reached in any tick of a run: in every tick the requested
count `floor(ftospawn)` fits the pool. -/
def capFree (dt : ℚ) : List Sample → ParticleSystem → Prop
  | [], _ => True
  | e :: es, s =>
    ⌊ftospawn e s dt⌋ + (s.particles.length : Int) ≤ (MAX_PARTICLES : Int) ∧
    match update e s dt with
    | none => True
    | some s1 => capFree dt es s1

/-- Consecutive calls of `update(dt)` seen from the spawn block alone. Each tick
is a sample together with the pool found at the start of that call (whatever the
particle loop of the previous call left); `rem` is carried from one spawn block
to the next. The result is the total number of particles pushed and the final
`rem`. -/
def spawnRun (dt : ℚ) : List (Sample × List Particle) → ParticleSystem → Nat × ℚ
  | [], s => (0, s.rem)
  | (e, ps) :: rest, s =>
    (spawned e { s with particles := ps } dt +
        (spawnRun dt rest (spawn e { s with particles := ps } dt)).1,
      (spawnRun dt rest (spawn e { s with particles := ps } dt)).2)

/-- The cap is not reached in any tick of a `spawnRun`. -/
def capFreeTrace (dt : ℚ) : List (Sample × List Particle) → ParticleSystem → Prop
  | [], _ => True
  | (e, ps) :: rest, s =>
    ⌊ftospawn e { s with particles := ps } dt⌋ + (ps.length : Int) ≤ (MAX_PARTICLES : Int) ∧
    capFreeTrace dt rest (spawn e { s with particles := ps } dt)

/-- An emitter definition with the given `EmitterType`, a 2 x 2 atlas, particle
type 0 and the ramp points of `systemOf`. -/
def emitterDef (emitterType : Int) : ModelParticleEmitterDef :=
  { EmitterType := emitterType, ParticleType := 0, rows := 2, cols := 2, flags := 0
    slowdown := 0
    colorKeys := (⟨0, 0, 0⟩, ⟨0, 0, 0⟩, ⟨0, 0, 0⟩)
    opacityKeys := (0, 0, 0)
    sizeKeys := (1, 5, 1)
    scales := (1, 1, 1) }

/-- A ribbon emitter with `seglen = 1` and `length = 10` whose anchor has moved
from the origin to `(t, 0, 0)` and whose chain is one lead segment of the given
`len`. -/
def ribbonAt (t len : ℚ) : RibbonEmitter :=
  { RibbonEmitter.init ⟨0, 0, 0⟩ 1 10 with
    tpos := ⟨t, 0, 0⟩
    segs := [{ pos := ⟨t, 0, 0⟩, up := ⟨0, 0, 1⟩, back := ⟨0, 0, 0⟩, len := len, len0 := 0 }] }

/-- A tick with gravity 10, deacceleration 1, nothing to spawn, and an `expf`
that returns 1/2. -/
def fallingSample : Sample :=
  { sampleOf 0 1 with grav := 10, deaccel := 1, expf := fun _ => 1 / 2 }

/-! # Theorems -/

/-! ## Machine arithmetic of the spawn block -/

theorem floatToInt_range (oor : ℚ → Int) (x : ℚ) :
    -(2 ^ 31 : Int) ≤ floatToInt oor x ∧ floatToInt oor x < 2 ^ 31 := by
  unfold floatToInt
  split_ifs with h h0
  · constructor
    · have : (0 : Int) ≤ ⌊x⌋ := Int.floor_nonneg.mpr h0
      omega
    · have : ⌊x⌋ < (2 ^ 31 : Int) := by
        rw [Int.floor_lt]; push_cast; exact h.2
      exact this
  · constructor
    · have : (-(2 ^ 31 : Int) - 1) < ⌈x⌉ := by
        rw [Int.lt_ceil]; push_cast; have h1 := h.1; norm_num at h1 ⊢; linarith
      omega
    · have : ⌈x⌉ ≤ (0 : Int) := by
        rw [Int.ceil_le]; push_cast; linarith
      omega
  · unfold toInt32; omega

theorem floatToInt_eq_floor (oor : ℚ → Int) (x : ℚ) (h0 : 0 ≤ x) (h1 : x < 2 ^ 31) :
    floatToInt oor x = ⌊x⌋ := by
  unfold floatToInt
  have : -(2 ^ 31 : ℚ) - 1 < x := by linarith [show (0:ℚ) < 2 ^ 31 by norm_num]
  simp [this, h1, h0]

theorem tospawn_bound (e : Sample) (s : ParticleSystem) (dt : ℚ)
    (h : s.particles.length ≤ MAX_PARTICLES) :
    s.particles.length + (tospawn e s dt).toNat ≤ MAX_PARTICLES := by
  have hr := floatToInt_range e.oor (ftospawn e s dt)
  unfold tospawn
  simp only [toSizeT, toInt32, SIZE_T_MOD, MAX_PARTICLES] at *
  split_ifs with hc
  · omega
  · omega

theorem tospawn_uncapped (e : Sample) (s : ParticleSystem) (dt : ℚ)
    (h0 : 0 ≤ ftospawn e s dt)
    (hc : ⌊ftospawn e s dt⌋ + (s.particles.length : Int) ≤ (MAX_PARTICLES : Int)) :
    tospawn e s dt = ⌊ftospawn e s dt⌋ := by
  have hf0 : (0 : Int) ≤ ⌊ftospawn e s dt⌋ := Int.floor_nonneg.mpr h0
  have hlt : ftospawn e s dt < 2 ^ 31 := by
    have h2 : ⌊ftospawn e s dt⌋ < (10001 : Int) := by
      simp only [MAX_PARTICLES] at hc; omega
    have := Int.floor_lt.mp h2
    push_cast at this
    linarith
  unfold tospawn
  rw [floatToInt_eq_floor e.oor _ h0 hlt]
  simp only [toSizeT, SIZE_T_MOD, MAX_PARTICLES] at *
  rw [if_neg]
  omega

theorem tospawn_capped (e : Sample) (s : ParticleSystem) (dt : ℚ)
    (h0 : 0 ≤ ftospawn e s dt) (h1 : ftospawn e s dt < 2 ^ 31)
    (hs : s.particles.length ≤ MAX_PARTICLES)
    (hc : (MAX_PARTICLES : Int) < ⌊ftospawn e s dt⌋ + (s.particles.length : Int)) :
    tospawn e s dt = (s.particles.length : Int) - (MAX_PARTICLES : Int) := by
  have hf0 : (0 : Int) ≤ ⌊ftospawn e s dt⌋ := Int.floor_nonneg.mpr h0
  have hf1 : ⌊ftospawn e s dt⌋ < (2 ^ 31 : Int) := by
    rw [Int.floor_lt]; push_cast; exact h1
  unfold tospawn
  rw [floatToInt_eq_floor e.oor _ h0 h1]
  simp only [toSizeT, toInt32, SIZE_T_MOD, MAX_PARTICLES] at *
  rw [if_pos]
  · omega
  · omega

/-! ## The particle loop -/

theorem integrate_length (e : Sample) (s : ParticleSystem) (dt : ℚ) :
    ∀ (ps qs : List Particle), integrate e s dt ps = some qs → qs.length = ps.length := by
  intro ps
  induction ps with
  | nil => intro qs h; simp [integrate] at h; simp [← h]
  | cons p rest ih =>
    intro qs h
    simp only [integrate] at h
    split_ifs at h with hx
    cases hr : integrate e s dt rest with
    | none => simp [hr] at h
    | some rs =>
      simp [hr] at h
      simp [← h, ih rs hr]

theorem update_eq_some (e : Sample) (s s1 : ParticleSystem) (dt : ℚ)
    (h : update e s dt = some s1) :
    ∃ ps, integrate e s dt (spawn e s dt).particles = some ps ∧
      s1 = { spawn e s dt with particles := ps } := by
  unfold update at h
  cases hi : integrate e s dt (spawn e s dt).particles with
  | none => simp [hi] at h
  | some ps =>
    simp [hi] at h
    exact ⟨ps, rfl, h.symm⟩

theorem spawn_length_le (e : Sample) (s : ParticleSystem) (dt : ℚ)
    (h : s.particles.length ≤ MAX_PARTICLES) :
    (spawn e s dt).particles.length ≤ MAX_PARTICLES := by
  have hb := tospawn_bound e s dt h
  unfold spawn
  split_ifs <;> simp <;> omega

/-! ## C1: the pool never exceeds the cap -/

/-- C1. If the pool holds at most `MAX_PARTICLES` particles before `update`, then
for every sample (rate, lifespan, enabled value, emitted particles, result of an
out-of-range cast), every `dt` and every carried `rem`, the pool holds at most
`MAX_PARTICLES` particles after the spawn block, and so does the pool of every
state that `update` returns. -/
theorem pool_never_exceeds_cap (e : Sample) (s : ParticleSystem) (dt : ℚ)
    (h : s.particles.length ≤ MAX_PARTICLES) :
    (spawn e s dt).particles.length ≤ MAX_PARTICLES ∧
    ∀ s1, update e s dt = some s1 → s1.particles.length ≤ MAX_PARTICLES := by
  refine ⟨spawn_length_le e s dt h, ?_⟩
  intro s1 hu
  obtain ⟨ps, hi, rfl⟩ := update_eq_some e s s1 dt hu
  simp only
  rw [integrate_length e s dt _ ps hi]
  exact spawn_length_le e s dt h

/-- Witness of C1: an empty pool, a tick requesting 50000 particles. -/
theorem pool_never_exceeds_cap_witness :
    (systemOf 0 [] []).particles.length ≤ MAX_PARTICLES ∧
    ((spawn (sampleOf 5000000 100) (systemOf 0 [] []) 1).particles.length ≤ MAX_PARTICLES ∧
      ∀ s1, update (sampleOf 5000000 100) (systemOf 0 [] []) 1 = some s1 →
        s1.particles.length ≤ MAX_PARTICLES) :=
  ⟨by decide, pool_never_exceeds_cap (sampleOf 5000000 100) (systemOf 0 [] []) 1 (by decide)⟩

/-! ## C2: the capped tick -/

/-- What the spawn block does, in general, when the request does not fit: with
`1 <= ftospawn < 2^31`, a pool of at most `MAX_PARTICLES` and
`floor(ftospawn) + particles.size() > MAX_PARTICLES`, no particle is pushed and
`rem` becomes `ftospawn + (MAX_PARTICLES - particles.size())`. -/
theorem spawn_capped (e : Sample) (s : ParticleSystem) (dt : ℚ)
    (hem : s.emitter.isSome = true)
    (h1 : 1 ≤ ftospawn e s dt) (h2 : ftospawn e s dt < 2 ^ 31)
    (hs : s.particles.length ≤ MAX_PARTICLES)
    (hc : (MAX_PARTICLES : Int) < ⌊ftospawn e s dt⌋ + (s.particles.length : Int)) :
    spawn e s dt =
      { s with rem := ftospawn e s dt + ((MAX_PARTICLES : ℚ) - (s.particles.length : ℚ)) } := by
  have ht := tospawn_capped e s dt (by linarith) h2 hs hc
  have hz : (tospawn e s dt).toNat = 0 := by
    rw [ht]
    have : (s.particles.length : Int) ≤ (MAX_PARTICLES : Int) := by exact_mod_cast hs
    omega
  unfold spawn
  rw [if_pos hem, if_neg (not_lt.mpr h1), hz, ht]
  cases s
  simp only [List.range_zero, List.map_nil, List.append_nil, ite_self]
  congr 1
  push_cast
  ring

/-- C2 (behaviour of the code at the failing input). With an empty pool, the
emitter enabled and `ftospawn = 50000` (rate 5000000, lifespan 100, `dt = 1`),
the size check replaces `tospawn` by `particles.size() - MAX_PARTICLES = -10000`:
`update` pushes no particle and leaves `rem = 60000`, where the claim has 10000
particles and `rem = 40000`. -/
theorem capped_tick_spawns_nothing :
    enabledNow (sampleOf 5000000 100) = true ∧
    ftospawn (sampleOf 5000000 100) (systemOf 0 [] []) 1 = 50000 ∧
    tospawn (sampleOf 5000000 100) (systemOf 0 [] []) 1 = -10000 ∧
    update (sampleOf 5000000 100) (systemOf 0 [] []) 1 = some (systemOf 60000 [] []) := by
  have hf : ftospawn (sampleOf 5000000 100) (systemOf 0 [] []) 1 = 50000 := by
    norm_num [ftospawn, sampleOf, systemOf]
  have hfl : ⌊(50000 : ℚ)⌋ = 50000 := by norm_num
  have ht : tospawn (sampleOf 5000000 100) (systemOf 0 [] []) 1 = -10000 := by
    rw [tospawn_capped _ _ _ (by rw [hf]; norm_num) (by rw [hf]; norm_num)
      (by simp [systemOf, MAX_PARTICLES]) (by rw [hf, hfl]; simp [systemOf, MAX_PARTICLES])]
    simp [systemOf, MAX_PARTICLES]
  have hsp : spawn (sampleOf 5000000 100) (systemOf 0 [] []) 1 = systemOf 60000 [] [] := by
    unfold spawn
    rw [hf, ht]
    norm_num [systemOf, enabledNow, sampleOf]
  refine ⟨by simp [enabledNow, sampleOf], hf, ht, ?_⟩
  unfold update
  rw [hsp]
  simp [systemOf, integrate]

/-! ## C3: the accumulator -/

theorem ftospawn_nonneg (e : Sample) (s : ParticleSystem) (dt : ℚ)
    (hdt : 0 ≤ dt) (hr : 0 ≤ e.frate) (hl : 0 < e.flife) (h0 : 0 ≤ s.rem) :
    0 ≤ ftospawn e s dt := by
  unfold ftospawn
  have : 0 ≤ dt * e.frate / e.flife := div_nonneg (mul_nonneg hdt hr) hl.le
  linarith

theorem spawn_rem_range (e : Sample) (s : ParticleSystem) (dt : ℚ)
    (hf : 0 ≤ ftospawn e s dt) (h0 : 0 ≤ s.rem) (h1 : s.rem < 1)
    (hc : ⌊ftospawn e s dt⌋ + (s.particles.length : Int) ≤ (MAX_PARTICLES : Int)) :
    0 ≤ (spawn e s dt).rem ∧ (spawn e s dt).rem < 1 := by
  unfold spawn
  by_cases hem : s.emitter.isSome = true
  · rw [if_pos hem]
    by_cases hlt : ftospawn e s dt < 1
    · rw [if_pos hlt, if_neg (not_lt.mpr hf)]
      exact ⟨hf, hlt⟩
    · rw [if_neg hlt]
      simp only
      rw [tospawn_uncapped e s dt hf hc]
      exact ⟨by linarith [Int.floor_le (ftospawn e s dt)],
        by linarith [Int.lt_floor_add_one (ftospawn e s dt)]⟩
  · rw [if_neg hem]
    exact ⟨h0, h1⟩

theorem spawn_count (e : Sample) (s : ParticleSystem) (dt : ℚ)
    (hem : s.emitter.isSome = true) (hen : enabledNow e = true)
    (hf : 0 ≤ ftospawn e s dt)
    (hc : ⌊ftospawn e s dt⌋ + (s.particles.length : Int) ≤ (MAX_PARTICLES : Int)) :
    (spawned e s dt : ℚ) + (spawn e s dt).rem = ftospawn e s dt := by
  unfold spawned spawn
  rw [if_pos hem]
  by_cases hlt : ftospawn e s dt < 1
  · rw [if_pos hlt, if_neg (not_lt.mpr hf)]
    simp
  · rw [if_neg hlt]
    simp only [hen, if_true]
    rw [tospawn_uncapped e s dt hf hc]
    have hfl : (0 : Int) ≤ ⌊ftospawn e s dt⌋ := Int.floor_nonneg.mpr hf
    simp only [List.length_append, List.length_map, List.length_range, Nat.add_sub_cancel_left]
    have : ((⌊ftospawn e s dt⌋.toNat : Nat) : ℚ) = ((⌊ftospawn e s dt⌋ : Int) : ℚ) := by
      have h2 : ((⌊ftospawn e s dt⌋.toNat : Nat) : Int) = ⌊ftospawn e s dt⌋ := Int.toNat_of_nonneg hfl
      exact_mod_cast h2
    rw [this]; ring

/-- C3 (counterexample). With `dt = 1`, rate 20001, lifespan 2, `rem = 1/2` and
an empty pool the request is `ftospawn = 10001`, more than the pool can take, and
`update` leaves `rem = 20001`, outside `[0, 1)`. -/
theorem rem_leaves_unit_interval_at_cap :
    (0 : ℚ) ≤ 1 ∧ 0 ≤ (sampleOf 20001 2).frate ∧ 0 < (sampleOf 20001 2).flife ∧
    0 ≤ (systemOf (1 / 2) [] []).rem ∧ (systemOf (1 / 2) [] []).rem < 1 ∧
    (systemOf (1 / 2) [] []).particles.length ≤ MAX_PARTICLES ∧
    update (sampleOf 20001 2) (systemOf (1 / 2) [] []) 1 = some (systemOf 20001 [] []) ∧
    ¬ ((systemOf 20001 [] []).rem < 1) := by
  have hf : ftospawn (sampleOf 20001 2) (systemOf (1 / 2) [] []) 1 = 10001 := by
    norm_num [ftospawn, sampleOf, systemOf]
  have hfl : ⌊(10001 : ℚ)⌋ = 10001 := by norm_num
  have ht : tospawn (sampleOf 20001 2) (systemOf (1 / 2) [] []) 1 = -10000 := by
    rw [tospawn_capped _ _ _ (by rw [hf]; norm_num) (by rw [hf]; norm_num)
      (by simp [systemOf, MAX_PARTICLES]) (by rw [hf, hfl]; simp [systemOf, MAX_PARTICLES])]
    simp [systemOf, MAX_PARTICLES]
  have hsp : spawn (sampleOf 20001 2) (systemOf (1 / 2) [] []) 1 = systemOf 20001 [] [] := by
    unfold spawn
    rw [hf, ht]
    norm_num [systemOf, enabledNow, sampleOf]
  refine ⟨by norm_num, by norm_num [sampleOf], by norm_num [sampleOf],
    by norm_num [systemOf], by norm_num [systemOf], by simp [systemOf, MAX_PARTICLES], ?_,
    by norm_num [systemOf]⟩
  unfold update
  rw [hsp]
  simp [systemOf, integrate]

/-- C3 (amended). For `dt >= 0`, rate `>= 0`, lifespan `> 0` and a starting state
with `rem` in `[0, 1)` in which the requested count fits the pool
(`floor(ftospawn) + particles.size() <= MAX_PARTICLES`), `rem` is in `[0, 1)`
after the spawn block, and in every state that `update` returns. -/
theorem rem_stays_in_unit_interval (e : Sample) (s : ParticleSystem) (dt : ℚ)
    (hdt : 0 ≤ dt) (hr : 0 ≤ e.frate) (hl : 0 < e.flife)
    (h0 : 0 ≤ s.rem) (h1 : s.rem < 1)
    (hc : ⌊ftospawn e s dt⌋ + (s.particles.length : Int) ≤ (MAX_PARTICLES : Int)) :
    (0 ≤ (spawn e s dt).rem ∧ (spawn e s dt).rem < 1) ∧
    ∀ s1, update e s dt = some s1 → 0 ≤ s1.rem ∧ s1.rem < 1 := by
  have hsp := spawn_rem_range e s dt (ftospawn_nonneg e s dt hdt hr hl h0) h0 h1 hc
  refine ⟨hsp, ?_⟩
  intro s1 hu
  obtain ⟨ps, _, rfl⟩ := update_eq_some e s s1 dt hu
  exact hsp

/-- Witness of C3 (amended): `dt = 1`, rate 3, lifespan 2, `rem = 1/4`, empty pool. -/
theorem rem_stays_in_unit_interval_witness :
    (0 ≤ (spawn (sampleOf 3 2) (systemOf (1 / 4) [] []) 1).rem ∧
      (spawn (sampleOf 3 2) (systemOf (1 / 4) [] []) 1).rem < 1) ∧
    ∀ s1, update (sampleOf 3 2) (systemOf (1 / 4) [] []) 1 = some s1 →
      0 ≤ s1.rem ∧ s1.rem < 1 :=
  rem_stays_in_unit_interval (sampleOf 3 2) (systemOf (1 / 4) [] []) 1
    (by norm_num) (by norm_num [sampleOf]) (by norm_num [sampleOf])
    (by norm_num [systemOf]) (by norm_num [systemOf])
    (by
      have hf : ftospawn (sampleOf 3 2) (systemOf (1 / 4) [] []) 1 = 7 / 4 := by
        norm_num [ftospawn, sampleOf, systemOf]
      have hfl : ⌊(7 / 4 : ℚ)⌋ = 1 := by
        rw [Int.floor_eq_iff]; norm_num
      rw [hf, hfl]
      simp [systemOf, MAX_PARTICLES])

/-! ## C4: the long-run spawn total -/

theorem spawn_emitter (e : Sample) (s : ParticleSystem) (dt : ℚ) :
    (spawn e s dt).emitter = s.emitter := by
  unfold spawn
  split_ifs <;> rfl

theorem run_invariant (dt r L : ℚ) (hdt : 0 ≤ dt) (hr : 0 ≤ r) (hL : 0 < L) :
    ∀ (es : List Sample) (s s1 : ParticleSystem) (k : Nat),
      (∀ e ∈ es, e.frate = r ∧ e.flife = L ∧ enabledNow e = true) →
      s.emitter.isSome = true → 0 ≤ s.rem → s.rem < 1 →
      capFree dt es s → updateRun dt es s = some (k, s1) →
      (k : ℚ) + s1.rem = s.rem + es.length * (dt * r / L) ∧ 0 ≤ s1.rem ∧ s1.rem < 1 := by
  intro es
  induction es with
  | nil =>
    intro s s1 k _ _ h0 h1 _ hrun
    simp only [updateRun, Option.some.injEq, Prod.mk.injEq] at hrun
    obtain ⟨rfl, rfl⟩ := hrun
    simp
    exact ⟨h0, h1⟩
  | cons e es ih =>
    intro s s1 k hes hem h0 h1 hcap hrun
    obtain ⟨he1, he2, he3⟩ := hes e (List.mem_cons_self _ _)
    simp only [capFree] at hcap
    obtain ⟨hc, hrest⟩ := hcap
    simp only [updateRun] at hrun
    cases hu : update e s dt with
    | none => simp [hu] at hrun
    | some s2 =>
      rw [hu] at hrun hrest
      simp only at hrun hrest
      cases hr2 : updateRun dt es s2 with
      | none => simp [hr2] at hrun
      | some res =>
        obtain ⟨k2, s3⟩ := res
        rw [hr2] at hrun
        simp only [Option.some.injEq, Prod.mk.injEq] at hrun
        obtain ⟨hk, hs⟩ := hrun
        subst hs
        obtain ⟨ps, _, hs2⟩ := update_eq_some e s s2 dt hu
        have hf := ftospawn_nonneg e s dt hdt (by rw [he1]; exact hr) (by rw [he2]; exact hL) h0
        have hrange := spawn_rem_range e s dt hf h0 h1 hc
        have hcount := spawn_count e s dt hem he3 hf hc
        have hs2rem : s2.rem = (spawn e s dt).rem := by rw [hs2]
        have hs2em : s2.emitter = s.emitter := by rw [hs2]; exact spawn_emitter e s dt
        have hih := ih s2 s3 k2 (fun e1 h1 => hes e1 (List.mem_cons_of_mem _ h1))
          (by rw [hs2em]; exact hem) (by rw [hs2rem]; exact hrange.1)
          (by rw [hs2rem]; exact hrange.2) hrest hr2
        refine ⟨?_, hih.2⟩
        have hft : ftospawn e s dt = dt * r / L + s.rem := by
          unfold ftospawn; rw [he1, he2]
        rw [← hk]
        push_cast
        rw [hs2rem] at hih
        simp only [List.length_cons]
        push_cast
        linarith [hih.1]

theorem trace_invariant (dt r L : ℚ) (hdt : 0 ≤ dt) (hr : 0 ≤ r) (hL : 0 < L) :
    ∀ (ticks : List (Sample × List Particle)) (s : ParticleSystem),
      (∀ t ∈ ticks, t.1.frate = r ∧ t.1.flife = L ∧ enabledNow t.1 = true) →
      s.emitter.isSome = true → 0 ≤ s.rem → s.rem < 1 →
      capFreeTrace dt ticks s →
      ((spawnRun dt ticks s).1 : ℚ) + (spawnRun dt ticks s).2 =
          s.rem + ticks.length * (dt * r / L) ∧
        0 ≤ (spawnRun dt ticks s).2 ∧ (spawnRun dt ticks s).2 < 1 := by
  intro ticks
  induction ticks with
  | nil =>
    intro s _ _ h0 h1 _
    simp [spawnRun]
    exact ⟨h0, h1⟩
  | cons t ticks ih =>
    intro s hes hem h0 h1 hcap
    obtain ⟨e, ps⟩ := t
    obtain ⟨he1, he2, he3⟩ := hes (e, ps) (List.mem_cons_self _ _)
    simp only at he1 he2 he3
    simp only [capFreeTrace] at hcap
    obtain ⟨hc, hrest⟩ := hcap
    have hf := ftospawn_nonneg e { s with particles := ps } dt hdt
      (by rw [he1]; exact hr) (by rw [he2]; exact hL) h0
    have hrange := spawn_rem_range e { s with particles := ps } dt hf h0 h1 hc
    have hcount := spawn_count e { s with particles := ps } dt hem he3 hf hc
    have hem1 : (spawn e { s with particles := ps } dt).emitter.isSome = true := by
      rw [spawn_emitter]; exact hem
    have hih := ih (spawn e { s with particles := ps } dt)
      (fun t1 h1 => hes t1 (List.mem_cons_of_mem _ h1)) hem1 hrange.1 hrange.2 hrest
    have hft : ftospawn e { s with particles := ps } dt = dt * r / L + s.rem := by
      unfold ftospawn; rw [he1, he2]
    simp only [spawnRun, List.length_cons]
    refine ⟨?_, hih.2⟩
    push_cast
    linarith [hih.1]

/-- C4. For constant `dt >= 0`, rate `r >= 0` and lifespan `L > 0`, with the
emitter enabled, `rem` initially 0 and the cap never reached, the total number
`k` of particles spawned by `N` consecutive calls of `update(dt)` satisfies
`k + rem = N*dt*r/L` with the final `rem`, hence `k = floor(N*dt*r/L)` and `k`
differs from `N*dt*r/L` by less than one particle. First part: for the spawn
blocks of `N` consecutive calls, whatever pool each call finds; second part: for
every run of `N` calls of `update` that is defined. -/
theorem spawn_total_is_floor (dt r L : ℚ) (hdt : 0 ≤ dt) (hr : 0 ≤ r) (hL : 0 < L) :
    (∀ (ticks : List (Sample × List Particle)) (s : ParticleSystem),
      (∀ t ∈ ticks, t.1.frate = r ∧ t.1.flife = L ∧ enabledNow t.1 = true) →
      s.emitter.isSome = true → s.rem = 0 → capFreeTrace dt ticks s →
      ((spawnRun dt ticks s).1 : ℚ) + (spawnRun dt ticks s).2 = ticks.length * dt * r / L ∧
      ((spawnRun dt ticks s).1 : Int) = ⌊(ticks.length : ℚ) * dt * r / L⌋ ∧
      |((spawnRun dt ticks s).1 : ℚ) - ticks.length * dt * r / L| < 1) ∧
    (∀ (es : List Sample) (s s1 : ParticleSystem) (k : Nat),
      (∀ e ∈ es, e.frate = r ∧ e.flife = L ∧ enabledNow e = true) →
      s.emitter.isSome = true → s.rem = 0 → capFree dt es s →
      updateRun dt es s = some (k, s1) →
      (k : ℚ) + s1.rem = es.length * dt * r / L ∧
      (k : Int) = ⌊(es.length : ℚ) * dt * r / L⌋ ∧
      |(k : ℚ) - es.length * dt * r / L| < 1) := by
  constructor
  · intro ticks s hes hem hrem hcap
    obtain ⟨hsum, h0, h1⟩ := trace_invariant dt r L hdt hr hL ticks s hes hem
      (by rw [hrem]) (by rw [hrem]; norm_num) hcap
    rw [hrem, zero_add] at hsum
    have hx : (ticks.length : ℚ) * dt * r / L = ticks.length * (dt * r / L) := by ring
    rw [hx]
    refine ⟨hsum, ?_, ?_⟩
    · symm
      rw [Int.floor_eq_iff]
      push_cast
      constructor <;> linarith
    · rw [abs_lt]
      constructor <;> linarith
  · intro es s s1 k hes hem hrem hcap hrun
    obtain ⟨hsum, h0, h1⟩ := run_invariant dt r L hdt hr hL es s s1 k hes hem
      (by rw [hrem]) (by rw [hrem]; norm_num) hcap hrun
    rw [hrem, zero_add] at hsum
    have hx : (es.length : ℚ) * dt * r / L = es.length * (dt * r / L) := by ring
    rw [hx]
    refine ⟨hsum, ?_, ?_⟩
    · symm
      rw [Int.floor_eq_iff]
      push_cast
      constructor <;> linarith
    · rw [abs_lt]
      constructor <;> linarith

@[simp] theorem vec3_add_mk (a b c d e f : ℚ) :
    (Vec3.mk a b c) + (Vec3.mk d e f) = Vec3.mk (a + d) (b + e) (c + f) := rfl

@[simp] theorem vec3_sub_mk (a b c d e f : ℚ) :
    (Vec3.mk a b c) - (Vec3.mk d e f) = Vec3.mk (a - d) (b - e) (c - f) := rfl

@[simp] theorem vec3_mul_mk (a b c k : ℚ) :
    (Vec3.mk a b c) * k = Vec3.mk (a * k) (b * k) (c * k) := rfl

@[simp] theorem vec4_add_mk (a b c d e f g h : ℚ) :
    (Vec4.mk a b c d) + (Vec4.mk e f g h) = Vec4.mk (a + e) (b + f) (c + g) (d + h) := rfl

@[simp] theorem vec4_mul_mk (a b c d k : ℚ) :
    (Vec4.mk a b c d) * k = Vec4.mk (a * k) (b * k) (c * k) (d * k) := rfl

theorem spawn_below_one (e : Sample) (s : ParticleSystem) (dt : ℚ)
    (hem : s.emitter.isSome = true) (h0 : 0 ≤ ftospawn e s dt) (h1 : ftospawn e s dt < 1) :
    spawn e s dt = { s with rem := ftospawn e s dt } := by
  unfold spawn
  rw [if_pos hem, if_pos h1, if_neg (not_lt.mpr h0)]

theorem spawn_uncapped (e : Sample) (s : ParticleSystem) (dt : ℚ)
    (hem : s.emitter.isSome = true) (hen : enabledNow e = true)
    (h1 : 1 ≤ ftospawn e s dt)
    (hc : ⌊ftospawn e s dt⌋ + (s.particles.length : Int) ≤ (MAX_PARTICLES : Int)) :
    spawn e s dt =
      { s with
        rem := ftospawn e s dt - ((⌊ftospawn e s dt⌋ : Int) : ℚ)
        particles :=
          s.particles ++ (List.range (⌊ftospawn e s dt⌋).toNat).map (newParticle e) } := by
  unfold spawn
  rw [if_pos hem, if_neg (not_lt.mpr h1), tospawn_uncapped e s dt (by linarith) hc]
  simp [hen]

theorem update_from_spawn (e : Sample) (s s1 : ParticleSystem) (dt : ℚ) (ps : List Particle)
    (hs : spawn e s dt = s1) (hi : integrate e s dt s1.particles = some ps) :
    update e s dt = some { s1 with particles := ps } := by
  unfold update
  rw [hs, hi]
  rfl

theorem demo_tick1 :
    update (sampleOf 3 2) (systemOf 0 [] []) (1 / 2) = some (systemOf (3 / 4) [] []) := by
  have hf : ftospawn (sampleOf 3 2) (systemOf 0 [] []) (1 / 2) = 3 / 4 := by
    norm_num [ftospawn, sampleOf, systemOf]
  have hs := spawn_below_one (sampleOf 3 2) (systemOf 0 [] []) (1 / 2) rfl
    (by rw [hf]; norm_num) (by rw [hf]; norm_num)
  rw [hf] at hs
  rw [update_from_spawn _ _ _ _ [] hs (by simp [systemOf, integrate])]
  simp [systemOf]

theorem demo_tick2 :
    update (sampleOf 3 2) (systemOf (3 / 4) [] []) (1 / 2) =
      some (systemOf (1 / 2) [] [{ particleOf (1 / 2) 2 0 with size := 3 }]) := by
  have hf : ftospawn (sampleOf 3 2) (systemOf (3 / 4) [] []) (1 / 2) = 3 / 2 := by
    norm_num [ftospawn, sampleOf, systemOf]
  have hfl : ⌊(3 / 2 : ℚ)⌋ = 1 := by rw [Int.floor_eq_iff]; norm_num
  have hs := spawn_uncapped (sampleOf 3 2) (systemOf (3 / 4) [] []) (1 / 2) rfl rfl
    (by rw [hf]; norm_num) (by rw [hf, hfl]; simp [systemOf, MAX_PARTICLES])
  rw [hf, hfl] at hs
  rw [update_from_spawn _ _ _ _ [{ particleOf (1 / 2) 2 0 with size := 3 }] hs]
  · simp [systemOf]; norm_num
  · simp [systemOf, integrate, List.range, List.range.loop, newParticle, sampleOf, particleOf,
      advance, rlife, lifeRamp, linear]
    norm_num

theorem demo_tick3 :
    update (sampleOf 3 2) (systemOf (1 / 2) [] [{ particleOf (1 / 2) 2 0 with size := 3 }])
        (1 / 2) =
      some (systemOf (1 / 4) []
        [{ particleOf 1 2 0 with size := 5 }, { particleOf (1 / 2) 2 0 with size := 3 }]) := by
  have hf : ftospawn (sampleOf 3 2)
      (systemOf (1 / 2) [] [{ particleOf (1 / 2) 2 0 with size := 3 }]) (1 / 2) = 5 / 4 := by
    norm_num [ftospawn, sampleOf, systemOf]
  have hfl : ⌊(5 / 4 : ℚ)⌋ = 1 := by rw [Int.floor_eq_iff]; norm_num
  have hs := spawn_uncapped (sampleOf 3 2)
    (systemOf (1 / 2) [] [{ particleOf (1 / 2) 2 0 with size := 3 }]) (1 / 2) rfl rfl
    (by rw [hf]; norm_num) (by rw [hf, hfl]; simp [systemOf, MAX_PARTICLES])
  rw [hf, hfl] at hs
  rw [update_from_spawn _ _ _ _
    [{ particleOf 1 2 0 with size := 5 }, { particleOf (1 / 2) 2 0 with size := 3 }] hs]
  · simp [systemOf]; norm_num
  · simp [systemOf, integrate, List.range, List.range.loop, newParticle, sampleOf, particleOf,
      advance, rlife, lifeRamp, linear]
    norm_num

theorem demo_capFree :
    capFree (1 / 2) [sampleOf 3 2, sampleOf 3 2, sampleOf 3 2] (systemOf 0 [] []) := by
  have hfl1 : ⌊(3 / 4 : ℚ)⌋ = 0 := by rw [Int.floor_eq_iff]; norm_num
  have hfl2 : ⌊(3 / 2 : ℚ)⌋ = 1 := by rw [Int.floor_eq_iff]; norm_num
  have hfl3 : ⌊(5 / 4 : ℚ)⌋ = 1 := by rw [Int.floor_eq_iff]; norm_num
  have hf1 : ftospawn (sampleOf 3 2) (systemOf 0 [] []) (1 / 2) = 3 / 4 := by
    norm_num [ftospawn, sampleOf, systemOf]
  have hf2 : ftospawn (sampleOf 3 2) (systemOf (3 / 4) [] []) (1 / 2) = 3 / 2 := by
    norm_num [ftospawn, sampleOf, systemOf]
  have hf3 : ftospawn (sampleOf 3 2)
      (systemOf (1 / 2) [] [{ particleOf (1 / 2) 2 0 with size := 3 }]) (1 / 2) = 5 / 4 := by
    norm_num [ftospawn, sampleOf, systemOf]
  simp only [capFree, demo_tick1, demo_tick2, demo_tick3, hf1, hf2, hf3, hfl1, hfl2, hfl3]
  simp [systemOf, MAX_PARTICLES]

theorem demo_run :
    updateRun (1 / 2) [sampleOf 3 2, sampleOf 3 2, sampleOf 3 2] (systemOf 0 [] []) =
      some (2, systemOf (1 / 4) []
        [{ particleOf 1 2 0 with size := 5 }, { particleOf (1 / 2) 2 0 with size := 3 }]) := by
  have h1 : spawned (sampleOf 3 2) (systemOf 0 [] []) (1 / 2) = 0 := by
    have hf : ftospawn (sampleOf 3 2) (systemOf 0 [] []) (1 / 2) = 3 / 4 := by
      norm_num [ftospawn, sampleOf, systemOf]
    unfold spawned
    rw [spawn_below_one (sampleOf 3 2) (systemOf 0 [] []) (1 / 2) rfl (by rw [hf]; norm_num)
      (by rw [hf]; norm_num)]
    simp
  have h2 : spawned (sampleOf 3 2) (systemOf (3 / 4) [] []) (1 / 2) = 1 := by
    have hf : ftospawn (sampleOf 3 2) (systemOf (3 / 4) [] []) (1 / 2) = 3 / 2 := by
      norm_num [ftospawn, sampleOf, systemOf]
    have hfl : ⌊(3 / 2 : ℚ)⌋ = 1 := by rw [Int.floor_eq_iff]; norm_num
    unfold spawned
    rw [spawn_uncapped (sampleOf 3 2) (systemOf (3 / 4) [] []) (1 / 2) rfl rfl
      (by rw [hf]; norm_num) (by rw [hf, hfl]; simp [systemOf, MAX_PARTICLES]), hf, hfl]
    simp [systemOf]
  have h3 : spawned (sampleOf 3 2)
      (systemOf (1 / 2) [] [{ particleOf (1 / 2) 2 0 with size := 3 }]) (1 / 2) = 1 := by
    have hf : ftospawn (sampleOf 3 2)
        (systemOf (1 / 2) [] [{ particleOf (1 / 2) 2 0 with size := 3 }]) (1 / 2) = 5 / 4 := by
      norm_num [ftospawn, sampleOf, systemOf]
    have hfl : ⌊(5 / 4 : ℚ)⌋ = 1 := by rw [Int.floor_eq_iff]; norm_num
    unfold spawned
    rw [spawn_uncapped (sampleOf 3 2)
      (systemOf (1 / 2) [] [{ particleOf (1 / 2) 2 0 with size := 3 }]) (1 / 2) rfl rfl
      (by rw [hf]; norm_num) (by rw [hf, hfl]; simp [systemOf, MAX_PARTICLES]), hf, hfl]
    simp [systemOf]
  simp only [updateRun, demo_tick1, demo_tick2, demo_tick3, h1, h2, h3]

theorem demo_trace :
    spawnRun (1 / 2)
        [(sampleOf 3 2, []), (sampleOf 3 2, []), (sampleOf 3 2, [particleOf (1 / 2) 2 0]),
          (sampleOf 3 2, [])]
        (systemOf 0 [] []) = (3, 0) ∧
    capFreeTrace (1 / 2)
        [(sampleOf 3 2, []), (sampleOf 3 2, []), (sampleOf 3 2, [particleOf (1 / 2) 2 0]),
          (sampleOf 3 2, [])]
        (systemOf 0 [] []) := by
  have hfl1 : ⌊(3 / 4 : ℚ)⌋ = 0 := by rw [Int.floor_eq_iff]; norm_num
  have hfl2 : ⌊(3 / 2 : ℚ)⌋ = 1 := by rw [Int.floor_eq_iff]; norm_num
  have hfl3 : ⌊(5 / 4 : ℚ)⌋ = 1 := by rw [Int.floor_eq_iff]; norm_num
  have hfl4 : ⌊(1 : ℚ)⌋ = 1 := by norm_num
  have hf1 : ftospawn (sampleOf 3 2) (systemOf 0 [] []) (1 / 2) = 3 / 4 := by
    norm_num [ftospawn, sampleOf, systemOf]
  have hs1 : spawn (sampleOf 3 2) (systemOf 0 [] []) (1 / 2) = systemOf (3 / 4) [] [] := by
    rw [spawn_below_one (sampleOf 3 2) (systemOf 0 [] []) (1 / 2) rfl
      (by rw [hf1]; norm_num) (by rw [hf1]; norm_num), hf1]
    rfl
  have hf2 : ftospawn (sampleOf 3 2) (systemOf (3 / 4) [] []) (1 / 2) = 3 / 2 := by
    norm_num [ftospawn, sampleOf, systemOf]
  have hs2 : spawn (sampleOf 3 2) (systemOf (3 / 4) [] []) (1 / 2) =
      systemOf (1 / 2) [] [newParticle (sampleOf 3 2) 0] := by
    rw [spawn_uncapped (sampleOf 3 2) (systemOf (3 / 4) [] []) (1 / 2) rfl rfl
      (by rw [hf2]; norm_num) (by rw [hf2, hfl2]; simp [systemOf, MAX_PARTICLES]), hf2, hfl2]
    simp [systemOf, List.range, List.range.loop]
    norm_num
  have hf3 : ftospawn (sampleOf 3 2) (systemOf (1 / 2) [] [particleOf (1 / 2) 2 0]) (1 / 2) =
      5 / 4 := by
    norm_num [ftospawn, sampleOf, systemOf]
  have hs3 : spawn (sampleOf 3 2) (systemOf (1 / 2) [] [particleOf (1 / 2) 2 0]) (1 / 2) =
      systemOf (1 / 4) [] [particleOf (1 / 2) 2 0, newParticle (sampleOf 3 2) 0] := by
    rw [spawn_uncapped (sampleOf 3 2) (systemOf (1 / 2) [] [particleOf (1 / 2) 2 0]) (1 / 2)
      rfl rfl (by rw [hf3]; norm_num)
      (by rw [hf3, hfl3]; simp [systemOf, MAX_PARTICLES]), hf3, hfl3]
    simp [systemOf, List.range, List.range.loop]
    norm_num
  have hf4 : ftospawn (sampleOf 3 2) (systemOf (1 / 4) [] []) (1 / 2) = 1 := by
    norm_num [ftospawn, sampleOf, systemOf]
  have hs4 : spawn (sampleOf 3 2) (systemOf (1 / 4) [] []) (1 / 2) =
      systemOf 0 [] [newParticle (sampleOf 3 2) 0] := by
    rw [spawn_uncapped (sampleOf 3 2) (systemOf (1 / 4) [] []) (1 / 2) rfl rfl
      (by rw [hf4]) (by rw [hf4, hfl4]; simp [systemOf, MAX_PARTICLES]), hf4, hfl4]
    simp [systemOf, List.range, List.range.loop]
  have e1 : { systemOf 0 [] [] with particles := [] } = systemOf 0 [] [] := rfl
  have e2 : { systemOf (3 / 4) [] [] with particles := [] } = systemOf (3 / 4) [] [] := rfl
  have e3 : { systemOf (1 / 2) [] [newParticle (sampleOf 3 2) 0] with
      particles := [particleOf (1 / 2) 2 0] } =
      systemOf (1 / 2) [] [particleOf (1 / 2) 2 0] := rfl
  have e4 : { systemOf (1 / 4) [] [particleOf (1 / 2) 2 0, newParticle (sampleOf 3 2) 0] with
      particles := [] } = systemOf (1 / 4) [] [] := rfl
  constructor
  · simp only [spawnRun, spawned, e1, hs1, e2, hs2, e3, hs3, e4, hs4]
    simp [systemOf]
  · simp only [capFreeTrace, e1, hs1, e2, hs2, e3, hs3, e4, hf1, hf2, hf3, hf4,
      hfl1, hfl2, hfl3, hfl4]
    simp [MAX_PARTICLES]

/-- Witness of C4. Spawn blocks: four ticks of `dt = 1/2` at rate 3 and lifespan
2, with pools of 0, 0, 1 and 0 particles at the start of the calls, spawn
`3 = floor(4 * 3/4)` particles and end with `rem = 0`. Calls of `update`: three
such ticks spawn 0, 1 and 1 particles, `2 = floor(9/4)` in total, and end with
`rem = 1/4`. -/
theorem spawn_total_is_floor_witness :
    (((3 : Nat) : ℚ) + 0 = ((4 : Nat) : ℚ) * (1 / 2) * 3 / 2 ∧
      ((3 : Nat) : Int) = ⌊((4 : Nat) : ℚ) * (1 / 2) * 3 / 2⌋ ∧
      |((3 : Nat) : ℚ) - ((4 : Nat) : ℚ) * (1 / 2) * 3 / 2| < 1) ∧
    (((2 : Nat) : ℚ) + 1 / 4 = ((3 : Nat) : ℚ) * (1 / 2) * 3 / 2 ∧
      ((2 : Nat) : Int) = ⌊((3 : Nat) : ℚ) * (1 / 2) * 3 / 2⌋ ∧
      |((2 : Nat) : ℚ) - ((3 : Nat) : ℚ) * (1 / 2) * 3 / 2| < 1) :=
  have h := spawn_total_is_floor (1 / 2) 3 2 (by norm_num) (by norm_num) (by norm_num)
  ⟨by
      have h1 := h.1
        [(sampleOf 3 2, []), (sampleOf 3 2, []), (sampleOf 3 2, [particleOf (1 / 2) 2 0]),
          (sampleOf 3 2, [])]
        (systemOf 0 [] [])
        (by intro t ht; simp at ht; rcases ht with rfl | rfl | rfl | rfl <;> exact ⟨rfl, rfl, rfl⟩)
        rfl rfl demo_trace.2
      rw [demo_trace.1] at h1
      simpa using h1,
    by
      have h2 := h.2 [sampleOf 3 2, sampleOf 3 2, sampleOf 3 2] (systemOf 0 [] []) _ 2
        (by intro e he; simp at he; subst he; exact ⟨rfl, rfl, rfl⟩)
        rfl rfl demo_capFree demo_run
      simpa [systemOf] using h2⟩

/-! ## C5: the cull -/

theorem integrate_eq_some_iff (e : Sample) (s : ParticleSystem) (dt : ℚ) :
    ∀ (ps qs : List Particle),
      integrate e s dt ps = some qs ↔
        (∀ p ∈ ps, rlife (advance e s dt p) < 1) ∧ qs = ps.map (advance e s dt) := by
  intro ps
  induction ps with
  | nil =>
    intro qs
    simp only [integrate, Option.some.injEq, List.map_nil, List.not_mem_nil]
    constructor
    · intro h; exact ⟨fun _ hp => absurd hp id, h.symm⟩
    · intro h; exact h.2.symm
  | cons p rest ih =>
    intro qs
    simp only [integrate, List.mem_cons, List.map_cons]
    by_cases hx : rlife (advance e s dt p) ≥ 1
    · rw [if_pos hx]
      constructor
      · intro h; exact absurd h (by simp)
      · intro h; exact absurd (h.1 p (Or.inl rfl)) (not_lt.mpr hx)
    · rw [if_neg hx]
      cases hr : integrate e s dt rest with
      | none =>
        constructor
        · intro h; simp at h
        · intro h
          have := (ih (rest.map (advance e s dt))).mpr
            ⟨fun q hq => h.1 q (Or.inr hq), rfl⟩
          rw [hr] at this
          exact absurd this (by simp)
      | some rs =>
        have hrs := (ih rs).mp hr
        simp only [Option.map_some', Option.some.injEq]
        constructor
        · intro h
          refine ⟨?_, ?_⟩
          · intro q hq
            rcases hq with rfl | hq
            · exact not_le.mp hx
            · exact hrs.1 q hq
          · rw [← h, hrs.2]
        · intro h
          rw [h.2, hrs.2]

theorem integrate_eq_none_iff (e : Sample) (s : ParticleSystem) (dt : ℚ) (ps : List Particle) :
    integrate e s dt ps = none ↔ ∃ p ∈ ps, 1 ≤ rlife (advance e s dt p) := by
  constructor
  · intro h
    by_contra hne
    push_neg at hne
    have := (integrate_eq_some_iff e s dt ps (ps.map (advance e s dt))).mpr ⟨hne, rfl⟩
    rw [h] at this
    exact absurd this (by simp)
  · rintro ⟨p, hp, hx⟩
    cases hi : integrate e s dt ps with
    | none => rfl
    | some qs =>
      have := ((integrate_eq_some_iff e s dt ps qs).mp hi).1 p hp
      exact absurd hx (not_le.mpr this)

/-- C5 (behaviour of the code at the failing input). A pool of two particles, the
first of which stays alive, the second (and last) of which reaches
`life/maxlife = 1` in this tick (life 3/2, maxlife 2, `dt = 1/2`): the loop erases
the last node and then increments the erased iterator, so `update` has no defined
result; the claim has it return with the expired particle removed and the other
one kept. -/
theorem cull_of_expired_particle_undefined :
    rlife (advance (sampleOf 0 1)
        (systemOf 0 [] [particleOf 0 2 0, particleOf (3 / 2) 2 0]) (1 / 2)
        (particleOf 0 2 0)) < 1 ∧
    1 ≤ rlife (advance (sampleOf 0 1)
        (systemOf 0 [] [particleOf 0 2 0, particleOf (3 / 2) 2 0]) (1 / 2)
        (particleOf (3 / 2) 2 0)) ∧
    update (sampleOf 0 1) (systemOf 0 [] [particleOf 0 2 0, particleOf (3 / 2) 2 0]) (1 / 2)
      = none := by
  have hx : 1 ≤ rlife (advance (sampleOf 0 1)
      (systemOf 0 [] [particleOf 0 2 0, particleOf (3 / 2) 2 0]) (1 / 2)
      (particleOf (3 / 2) 2 0)) := by
    norm_num [rlife, advance, particleOf]
  refine ⟨by norm_num [rlife, advance, particleOf], hx, ?_⟩
  have hf : ftospawn (sampleOf 0 1)
      (systemOf 0 [] [particleOf 0 2 0, particleOf (3 / 2) 2 0]) (1 / 2) = 0 := by
    norm_num [ftospawn, sampleOf, systemOf]
  have hs := spawn_below_one (sampleOf 0 1)
    (systemOf 0 [] [particleOf 0 2 0, particleOf (3 / 2) 2 0]) (1 / 2) rfl
    (by rw [hf]) (by rw [hf]; norm_num)
  unfold update
  rw [hs]
  simp only [Option.map_eq_none']
  rw [integrate_eq_none_iff]
  exact ⟨particleOf (3 / 2) 2 0, by simp [systemOf], hx⟩

/-! ## C6: ticks with `dt = 0` -/

theorem vec3_add_zero_mul (v a b : Vec3) (g d : ℚ) : v + (a * g * (0 : ℚ) - b * d * (0 : ℚ)) = v := by
  cases v; cases a; cases b; simp

theorem vec3_add_mul_zero (v w : Vec3) (m : ℚ) : v + w * m * (0 : ℚ) = v := by
  cases v; cases w; simp

theorem advance_zero (e : Sample) (s : ParticleSystem) (p : Particle)
    (hsize : p.size = lifeRamp (rlife p) s.mid s.sizes.1 s.sizes.2.1 s.sizes.2.2)
    (hcolor : p.color = lifeRamp (rlife p) s.mid s.colors.1 s.colors.2.1 s.colors.2.2) :
    advance e s 0 p = p := by
  unfold advance
  simp only [add_zero, vec3_add_zero_mul, vec3_add_mul_zero]
  unfold rlife at hsize hcolor
  rw [← hsize, ← hcolor]

theorem spawn_zero (e : Sample) (s : ParticleSystem) (hrem : s.rem < 1) :
    spawn e s 0 =
      { s with rem := if s.emitter.isSome = true then (if s.rem < 0 then 0 else s.rem)
                      else s.rem } := by
  have hf : ftospawn e s 0 = s.rem := by simp [ftospawn]
  unfold spawn
  rw [hf]
  by_cases hem : s.emitter.isSome = true
  · rw [if_pos hem, if_pos hrem, if_pos hem]
  · rw [if_neg hem, if_neg hem]

theorem update_zero (e : Sample) (s : ParticleSystem) (hrem : s.rem < 1)
    (hps : ∀ p ∈ s.particles, rlife p < 1 ∧
      p.size = lifeRamp (rlife p) s.mid s.sizes.1 s.sizes.2.1 s.sizes.2.2 ∧
      p.color = lifeRamp (rlife p) s.mid s.colors.1 s.colors.2.1 s.colors.2.2) :
    update e s 0 =
      some { s with rem := if s.emitter.isSome = true then (if s.rem < 0 then 0 else s.rem)
                           else s.rem } := by
  have hmap : s.particles.map (advance e s 0) = s.particles := by
    conv_rhs => rw [← List.map_id s.particles]
    apply List.map_congr_left
    intro p hp
    rw [advance_zero e s p (hps p hp).2.1 (hps p hp).2.2]
    rfl
  have hi : integrate e s 0 s.particles = some s.particles := by
    rw [integrate_eq_some_iff]
    refine ⟨?_, hmap.symm⟩
    intro p hp
    rw [advance_zero e s p (hps p hp).2.1 (hps p hp).2.2]
    exact (hps p hp).1
  unfold update
  rw [spawn_zero e s hrem]
  simp only
  rw [hi]
  rfl

theorem updateZero_fixes_pool : ∀ (es : List Sample) (s : ParticleSystem), s.rem < 1 →
    (∀ p ∈ s.particles, rlife p < 1 ∧
      p.size = lifeRamp (rlife p) s.mid s.sizes.1 s.sizes.2.1 s.sizes.2.2 ∧
      p.color = lifeRamp (rlife p) s.mid s.colors.1 s.colors.2.1 s.colors.2.2) →
    ∃ s1, updateZero es s = some s1 ∧ s1.particles = s.particles := by
  intro es
  induction es with
  | nil => intro s _ _; exact ⟨s, rfl, rfl⟩
  | cons e es ih =>
    intro s hrem hps
    simp only [updateZero]
    rw [update_zero e s hrem hps]
    simp only
    apply ih
    · simp only
      split_ifs <;> first | exact hrem | norm_num
    · exact hps

/-- C6 (counterexample). Three states on which `update(0)` does not leave the
pool as it was: with `rem = 1` and an empty pool it spawns a particle; a pooled
particle whose stored size is not the ramp value for its life gets a new size;
with a pooled particle that already has `life/maxlife = 1` the erase path is
taken and there is no defined result. -/
theorem update_zero_changes_pool :
    (update (sampleOf 0 1) (systemOf 1 [] []) 0 =
        some (systemOf 0 [] [{ particleOf 0 1 0 with size := 1 }]) ∧
      (systemOf 0 [] [{ particleOf 0 1 0 with size := 1 }]).particles ≠
        (systemOf 1 [] []).particles) ∧
    (update (sampleOf 0 1) (systemOf 0 [] [particleOf 0 2 0]) 0 =
        some (systemOf 0 [] [{ particleOf 0 2 0 with size := 1 }]) ∧
      (systemOf 0 [] [{ particleOf 0 2 0 with size := 1 }]).particles ≠
        (systemOf 0 [] [particleOf 0 2 0]).particles) ∧
    update (sampleOf 0 1) (systemOf 0 [] [particleOf 2 2 0]) 0 = none := by
  refine ⟨⟨?_, ?_⟩, ⟨?_, ?_⟩, ?_⟩
  · have hf : ftospawn (sampleOf 0 1) (systemOf 1 [] []) 0 = 1 := by
      norm_num [ftospawn, sampleOf, systemOf]
    have hfl : ⌊(1 : ℚ)⌋ = 1 := by norm_num
    have hs := spawn_uncapped (sampleOf 0 1) (systemOf 1 [] []) 0 rfl rfl
      (by rw [hf]) (by rw [hf, hfl]; simp [systemOf, MAX_PARTICLES])
    rw [hf, hfl] at hs
    rw [update_from_spawn _ _ _ _ [{ particleOf 0 1 0 with size := 1 }] hs]
    · simp [systemOf]
    · simp [systemOf, integrate, List.range, List.range.loop, newParticle, sampleOf, particleOf,
        advance, rlife, lifeRamp, linear]
  · simp [systemOf]
  · have hf : ftospawn (sampleOf 0 1) (systemOf 0 [] [particleOf 0 2 0]) 0 = 0 := by
      norm_num [ftospawn, sampleOf, systemOf]
    have hs := spawn_below_one (sampleOf 0 1) (systemOf 0 [] [particleOf 0 2 0]) 0 rfl
      (by rw [hf]) (by rw [hf]; norm_num)
    rw [hf] at hs
    rw [update_from_spawn _ _ _ _ [{ particleOf 0 2 0 with size := 1 }] hs]
    · simp [systemOf]
    · simp [systemOf, integrate, particleOf, advance, rlife, lifeRamp, linear]
  · simp [systemOf, particleOf]
  · have hf : ftospawn (sampleOf 0 1) (systemOf 0 [] [particleOf 2 2 0]) 0 = 0 := by
      norm_num [ftospawn, sampleOf, systemOf]
    have hs := spawn_below_one (sampleOf 0 1) (systemOf 0 [] [particleOf 2 2 0]) 0 rfl
      (by rw [hf]) (by rw [hf]; norm_num)
    unfold update
    rw [hs]
    simp only [Option.map_eq_none']
    rw [integrate_eq_none_iff]
    exact ⟨particleOf 2 2 0, by simp [systemOf], by norm_num [rlife, advance, particleOf]⟩

/-- C6 (amended). For every state with `rem < 1` in which every pooled particle
has `life/maxlife < 1` and carries the size and colour that the ramp gives for
its `life/maxlife`, `update(0)` returns a state with the same pool (same
particles, every attribute unchanged), and so does any number of consecutive
`update(0)` calls, whatever is sampled in each of them. -/
theorem update_zero_keeps_pool (s : ParticleSystem) (hrem : s.rem < 1)
    (hps : ∀ p ∈ s.particles, rlife p < 1 ∧
      p.size = lifeRamp (rlife p) s.mid s.sizes.1 s.sizes.2.1 s.sizes.2.2 ∧
      p.color = lifeRamp (rlife p) s.mid s.colors.1 s.colors.2.1 s.colors.2.2) :
    (∀ e : Sample, ∃ s1, update e s 0 = some s1 ∧ s1.particles = s.particles) ∧
    (∀ es : List Sample, ∃ s1, updateZero es s = some s1 ∧ s1.particles = s.particles) := by
  refine ⟨?_, fun es => updateZero_fixes_pool es s hrem hps⟩
  intro e
  exact ⟨_, update_zero e s hrem hps, rfl⟩

/-- Witness of C6 (amended): `rem = 1/2` and one pooled particle of life 1,
maxlife 2, size 5 (the ramp value at `life/maxlife = 1/2`). -/
theorem update_zero_keeps_pool_witness :
    (∀ e : Sample, ∃ s1,
      update e (systemOf (1 / 2) [] [{ particleOf 1 2 0 with size := 5 }]) 0 = some s1 ∧
      s1.particles = (systemOf (1 / 2) [] [{ particleOf 1 2 0 with size := 5 }]).particles) ∧
    (∀ es : List Sample, ∃ s1,
      updateZero es (systemOf (1 / 2) [] [{ particleOf 1 2 0 with size := 5 }]) = some s1 ∧
      s1.particles = (systemOf (1 / 2) [] [{ particleOf 1 2 0 with size := 5 }]).particles) :=
  update_zero_keeps_pool (systemOf (1 / 2) [] [{ particleOf 1 2 0 with size := 5 }])
    (by norm_num [systemOf])
    (by
      intro p hp
      simp only [systemOf, List.mem_singleton] at hp
      subst hp
      simp [systemOf, particleOf, rlife, lifeRamp, linear]
      norm_num)

/-! ## C7: lifeRamp -/

theorem trimLoop_lens (length : ℚ) :
    ∀ (segs : List RibbonSegment) (l : ℚ) (em : Bool),
      (trimLoop length l em segs).map (fun gs => gs.map (fun g => g.len)) =
        trimLens length l em (segs.map (fun g => g.len)) := by
  intro segs
  induction segs with
  | nil => intro l em; cases em <;> simp [trimLoop, trimLens]
  | cons seg rest ih =>
    intro l em
    cases em with
    | true => simp [trimLoop, trimLens]
    | false =>
      simp only [trimLoop, trimLens, List.map_cons]
      split_ifs with h
      · rw [← ih (l + seg.len) true]
        cases trimLoop length (l + seg.len) true rest <;> simp
      · rw [← ih (l + seg.len) false]
        cases trimLoop length (l + seg.len) false rest <;> simp

theorem moveFirst_lens (seglen : ℚ) (tpos ntpos ntup : Vec3) (dlen : ℚ)
    (first : RibbonSegment) (rest : List RibbonSegment) :
    (moveFirst seglen tpos ntpos ntup dlen first rest).map (fun g => g.len) =
      moveLens seglen dlen first.len (rest.map (fun g => g.len)) := by
  unfold moveFirst moveLens
  split_ifs <;> simp [RibbonSegment.make]

theorem vec3_add_mul_zero_right (p u : Vec3) : p + u * (0 : ℚ) = p := by
  cases p; cases u; simp

theorem length_along (p u : Vec3) (t t0 : ℚ)
    (hu : u.x * u.x + u.y * u.y + u.z * u.z = 1) :
    ((p + u * t) - (p + u * t0)).length = |t - t0| := by
  cases p with
  | mk px py pz =>
  cases u with
  | mk ux uy uz =>
  simp only [vec3_mul_mk, vec3_add_mk, vec3_sub_mk, Vec3.length]
  simp only at hu
  have h : (px + ux * t - (px + ux * t0)) * (px + ux * t - (px + ux * t0)) +
      (py + uy * t - (py + uy * t0)) * (py + uy * t - (py + uy * t0)) +
      (pz + uz * t - (pz + uz * t0)) * (pz + uz * t - (pz + uz * t0)) =
      (t - t0) * (t - t0) := by
    have : (px + ux * t - (px + ux * t0)) * (px + ux * t - (px + ux * t0)) +
      (py + uy * t - (py + uy * t0)) * (py + uy * t - (py + uy * t0)) +
      (pz + uz * t - (pz + uz * t0)) * (pz + uz * t - (pz + uz * t0)) =
      (t - t0) * (t - t0) * (ux * ux + uy * uy + uz * uz) := by ring
    rw [this, hu, mul_one]
  rw [h, Rat.sqrt_eq]

theorem setup_lens (r : RibbonEmitter) (u : Vec3) (t t0 : ℚ)
    (hu : u.x * u.x + u.y * u.y + u.z * u.z = 1) (ht : r.tpos = r.pos + u * t0) :
    (∀ r1, r.setup (translated (u * t)) = some r1 →
      r1.pos = r.pos ∧ r1.seglen = r.seglen ∧ r1.length = r.length ∧
      r1.tpos = r.pos + u * t) ∧
    (r.setup (translated (u * t))).map (fun r1 => r1.segs.map (fun g => g.len)) =
      setupLens r.seglen r.length |t - t0| (r.segs.map (fun g => g.len)) := by
  unfold RibbonEmitter.setup
  cases hsegs : r.segs with
  | nil => simp [setupLens]
  | cons first rest =>
    simp only [List.map_cons, setupLens]
    have hd : (((translated (u * t)).mat r.pos) - r.tpos).length = |t - t0| := by
      rw [ht]
      exact length_along r.pos u t t0 hu
    rw [hd, ← moveFirst_lens r.seglen r.tpos ((translated (u * t)).mat r.pos)
      (((translated (u * t)).mat (r.pos + ⟨0, 0, 1⟩)) - ((translated (u * t)).mat r.pos)).normalize
      |t - t0| first rest, ← trimLoop_lens]
    constructor
    · intro r1 h
      cases htl : trimLoop r.length 0 false
          (moveFirst r.seglen r.tpos ((translated (u * t)).mat r.pos)
            (((translated (u * t)).mat (r.pos + ⟨0, 0, 1⟩)) -
              ((translated (u * t)).mat r.pos)).normalize |t - t0| first rest) with
      | none => rw [htl] at h; simp at h
      | some gs =>
        rw [htl] at h
        simp only [Option.map_some', Option.some.injEq] at h
        rw [← h]
        simp [translated]
    · cases trimLoop r.length 0 false
          (moveFirst r.seglen r.tpos ((translated (u * t)).mat r.pos)
            (((translated (u * t)).mat (r.pos + ⟨0, 0, 1⟩)) -
              ((translated (u * t)).mat r.pos)).normalize |t - t0| first rest) <;> simp

theorem run_lens (u : Vec3) (hu : u.x * u.x + u.y * u.y + u.z * u.z = 1) :
    ∀ (ts : List ℚ) (r : RibbonEmitter) (t0 : ℚ), r.tpos = r.pos + u * t0 →
      (r.run (path u ts)).map (fun r1 => r1.segs.map (fun g => g.len)) =
        runLens r.seglen r.length t0 ts (r.segs.map (fun g => g.len)) := by
  intro ts
  induction ts with
  | nil => intro r t0 _; simp [path, RibbonEmitter.run, runLens]
  | cons t ts ih =>
    intro r t0 ht
    obtain ⟨hinv, hl⟩ := setup_lens r u t t0 hu ht
    simp only [path, List.map_cons, RibbonEmitter.run, runLens]
    rw [← hl]
    cases hs : r.setup (translated (u * t)) with
    | none => simp
    | some r1 =>
      obtain ⟨h1, h2, h3, h4⟩ := hinv r1 hs
      simp only [Option.map_some']
      have := ih r1 t (by rw [h4, h1])
      rw [h2, h3] at this
      exact this

theorem init_run_lens (u pos : Vec3) (hu : u.x * u.x + u.y * u.y + u.z * u.z = 1)
    (seglen res : ℚ) (ts : List ℚ) :
    ((RibbonEmitter.init pos seglen res).run (path u ts)).map
        (fun r1 => r1.segs.map (fun g => g.len)) =
      runLens seglen (res * seglen) 0 ts [0] := by
  have := run_lens u hu ts (RibbonEmitter.init pos seglen res) 0
    (by simp [RibbonEmitter.init, vec3_add_mul_zero_right])
  simpa [RibbonEmitter.init, RibbonSegment.make] using this

theorem trimLens_noop (length : ℚ) :
    ∀ (ls : List ℚ) (l : ℚ), (∀ x ∈ ls, 0 ≤ x) → l + ls.sum ≤ length →
      trimLens length l false ls = some ls := by
  intro ls
  induction ls with
  | nil => intro l _ _; simp [trimLens]
  | cons x rest ih =>
    intro l hpos hsum
    have hrest : 0 ≤ rest.sum := List.sum_nonneg (fun y hy => hpos y (List.mem_cons_of_mem _ hy))
    simp only [List.sum_cons] at hsum
    simp only [trimLens]
    rw [if_neg (by linarith), ih (l + x) (fun y hy => hpos y (List.mem_cons_of_mem _ hy))
      (by linarith)]
    rfl

theorem moveLens_sum (seglen d first : ℚ) (rest : List ℚ) :
    (moveLens seglen d first rest).sum = (first :: rest).sum + d := by
  unfold moveLens
  split_ifs <;> simp <;> ring

theorem moveLens_nonneg (seglen d first : ℚ) (rest : List ℚ) (hd : 0 ≤ d)
    (h : ∀ x ∈ first :: rest, 0 ≤ x) : ∀ x ∈ moveLens seglen d first rest, 0 ≤ x := by
  unfold moveLens
  have hf : 0 ≤ first := h first (List.mem_cons_self _ _)
  split_ifs
  · intro x hx
    rcases List.mem_cons.mp hx with rfl | hx
    · exact hd
    · exact h x hx
  · intro x hx
    rcases List.mem_cons.mp hx with rfl | hx
    · linarith
    · exact h x (List.mem_cons_of_mem _ hx)

theorem moveLens_ne_nil (seglen d first : ℚ) (rest : List ℚ) :
    moveLens seglen d first rest ≠ [] := by
  unfold moveLens
  split_ifs <;> simp

theorem travel_nonneg : ∀ (ts : List ℚ) (t0 : ℚ), 0 ≤ travel t0 ts := by
  intro ts
  induction ts with
  | nil => intro t0; simp [travel]
  | cons t ts ih =>
    intro t0
    simp only [travel]
    have := ih t
    have := abs_nonneg (t - t0)
    linarith

theorem runLens_free (seglen length : ℚ) :
    ∀ (ts : List ℚ) (t0 : ℚ) (ls : List ℚ), ls ≠ [] → (∀ x ∈ ls, 0 ≤ x) →
      ls.sum + travel t0 ts ≤ length →
      runLens seglen length t0 ts ls = some (runFree seglen t0 ts ls) := by
  intro ts
  induction ts with
  | nil => intro t0 ls _ _ _; simp [runLens, runFree]
  | cons t ts ih =>
    intro t0 ls hne hpos hsum
    cases ls with
    | nil => exact absurd rfl hne
    | cons first rest =>
      simp only [travel] at hsum
      have hd : 0 ≤ |t - t0| := abs_nonneg _
      have htr : 0 ≤ travel t ts := travel_nonneg ts t
      have hms := moveLens_sum seglen |t - t0| first rest
      have hmp := moveLens_nonneg seglen |t - t0| first rest hd hpos
      simp only [runLens, runFree, setupLens]
      rw [trimLens_noop length _ 0 hmp (by rw [hms]; linarith)]
      simp only
      exact ih t _ (moveLens_ne_nil _ _ _ _) hmp (by rw [hms]; linarith)

theorem count_of_lens (o : Option RibbonEmitter) (ls : List ℚ)
    (h : o.map (fun r1 => r1.segs.map (fun g => g.len)) = some ls) :
    o.map (fun r1 => r1.segs.length) = some ls.length := by
  cases o with
  | none => simp at h
  | some r =>
    simp only [Option.map_some', Option.some.injEq] at h ⊢
    rw [← h, List.length_map]

theorem abs_fifth : |(1 / 5 : ℚ)| = 1 / 5 := abs_of_pos (by norm_num)

theorem ribbon_granularity (pos u : Vec3) (res : ℚ)
    (hu : u.x * u.x + u.y * u.y + u.z * u.z = 1) (hres : 2 ≤ res) :
    ((RibbonEmitter.init pos 1 res).run (path u (ticks 2 (1 / 10) 10))).map
        (fun r1 => r1.segs.map (fun g => g.len)) = some [4 / 5, 6 / 5] ∧
    ((RibbonEmitter.init pos 1 res).run (path u (ticks 2 1 1))).map
        (fun r1 => r1.segs.map (fun g => g.len)) = some [2] := by
  constructor
  · rw [init_run_lens u pos hu 1 res, runLens_free 1 (res * 1) _ 0 [0] (by simp) (by simp)]
    · norm_num [ticks, List.range, List.range.loop, runFree, moveLens, abs_fifth]
    · have : travel 0 (ticks 2 (1 / 10) 10) = 2 := by
        norm_num [ticks, List.range, List.range.loop, travel, abs_fifth]
      rw [this]; simp; linarith
  · rw [init_run_lens u pos hu 1 res, runLens_free 1 (res * 1) _ 0 [0] (by simp) (by simp)]
    · norm_num [ticks, List.range, List.range.loop, runFree, moveLens]
    · have : travel 0 (ticks 2 1 1) = 2 := by
        norm_num [ticks, List.range, List.range.loop, travel]
      rw [this]; simp; linarith

/-! ## C8: trimming the chain -/

/-- C8 (behaviour of the code at the failing input). A fresh emitter with
`seglen = 1` and `length = 2`. If the anchor moves 10 units in one `setup`, the
single segment gets `len = 10`, the running total exceeds `length`, and the loop
stores the overshoot `l - length = 8`: the chain length is 8, not at most 2, and
the oldest segment has `len = 8`, not `length - 0 = 2`. If the anchor moves
3/2, 1, 1/2, 1/2 units the chain has the lengths 1/2, 3/2, 1/2 (total 5/2); one
more unit puts the running total over `length` at the second segment, the third
is erased, and incrementing the erased iterator leaves `setup` without a defined
result. -/
theorem trim_stores_overshoot :
    ((RibbonEmitter.init ⟨0, 0, 0⟩ 1 2).run (path ⟨1, 0, 0⟩ [10])).map
        (fun r1 => r1.segs.map (fun g => g.len)) = some [8] ∧
    ((RibbonEmitter.init ⟨0, 0, 0⟩ 1 2).run (path ⟨1, 0, 0⟩ [10])).map
        (fun r1 => chainLength r1.segs) = some 8 ∧
    (RibbonEmitter.init ⟨0, 0, 0⟩ 1 2).length = 2 ∧
    ((RibbonEmitter.init ⟨0, 0, 0⟩ 1 2).run (path ⟨1, 0, 0⟩ [3 / 2, 5 / 2, 3, 7 / 2])).map
        (fun r1 => r1.segs.map (fun g => g.len)) = some [1 / 2, 3 / 2, 1 / 2] ∧
    (RibbonEmitter.init ⟨0, 0, 0⟩ 1 2).run (path ⟨1, 0, 0⟩ [3 / 2, 5 / 2, 3, 7 / 2, 9 / 2]) =
      none := by
  have hu : (⟨1, 0, 0⟩ : Vec3).x * (⟨1, 0, 0⟩ : Vec3).x +
      (⟨1, 0, 0⟩ : Vec3).y * (⟨1, 0, 0⟩ : Vec3).y +
      (⟨1, 0, 0⟩ : Vec3).z * (⟨1, 0, 0⟩ : Vec3).z = 1 := by norm_num
  have h10 : |(10 : ℚ)| = 10 := abs_of_pos (by norm_num)
  have h32 : |(3 / 2 : ℚ)| = 3 / 2 := abs_of_pos (by norm_num)
  have h12 : |(1 / 2 : ℚ)| = 1 / 2 := abs_of_pos (by norm_num)
  have hA := init_run_lens ⟨1, 0, 0⟩ ⟨0, 0, 0⟩ hu 1 2 [10]
  have hA2 : runLens 1 (2 * 1) 0 [10] [0] = some [8] := by
    norm_num [runLens, setupLens, moveLens, trimLens, h10]
  rw [hA2] at hA
  refine ⟨hA, ?_, by norm_num [RibbonEmitter.init], ?_, ?_⟩
  · cases hr : (RibbonEmitter.init ⟨0, 0, 0⟩ 1 2).run (path ⟨1, 0, 0⟩ [10]) with
    | none => rw [hr] at hA; simp at hA
    | some r1 =>
      rw [hr] at hA
      simp only [Option.map_some', Option.some.injEq] at hA
      simp only [Option.map_some', Option.some.injEq, chainLength]
      rw [hA]
      norm_num
  · rw [init_run_lens ⟨1, 0, 0⟩ ⟨0, 0, 0⟩ hu 1 2]
    norm_num [runLens, setupLens, moveLens, trimLens, h32, h12]
  · have hC := init_run_lens ⟨1, 0, 0⟩ ⟨0, 0, 0⟩ hu 1 2 [3 / 2, 5 / 2, 3, 7 / 2, 9 / 2]
    have hC2 : runLens 1 (2 * 1) 0 [3 / 2, 5 / 2, 3, 7 / 2, 9 / 2] [0] = none := by
      norm_num [runLens, setupLens, moveLens, trimLens, h32, h12]
    rw [hC2] at hC
    simpa using hC

/-! ## C9: sealing and tick granularity -/

/-- C9 (counterexample). With `seglen = 1`, `length = 10`, a fresh chain and the
anchor moving along the x axis at 2 units per second, one `setup` call covering
the whole second leaves one segment (the lead, nothing sealed), while ten calls
covering 0.1 s each leave two segments. -/
theorem one_step_does_not_seal :
    ((RibbonEmitter.init ⟨0, 0, 0⟩ 1 10).run (path ⟨1, 0, 0⟩ (ticks 2 1 1))).map
        (fun r1 => r1.segs.length) = some 1 ∧
    ((RibbonEmitter.init ⟨0, 0, 0⟩ 1 10).run (path ⟨1, 0, 0⟩ (ticks 2 (1 / 10) 10))).map
        (fun r1 => r1.segs.length) = some 2 := by
  have h := ribbon_granularity ⟨0, 0, 0⟩ ⟨1, 0, 0⟩ 10 (by norm_num) (by norm_num)
  exact ⟨count_of_lens _ _ h.2, count_of_lens _ _ h.1⟩

/-- C9 (amended). For `seglen = 1`, a target length of at least 2, a fresh
single-segment chain and an anchor moving in a straight line (unit direction
`u`) at 2 units per second: ten `setup` calls covering 0.1 s each end with two
segments, the lead with `len = 4/5` and one sealed segment with `len = 6/5`,
whereas one `setup` call covering 1.0 s ends with the single lead segment,
`len = 2`, nothing sealed. -/
theorem segment_count_depends_on_granularity (pos u : Vec3) (res : ℚ)
    (hu : u.x * u.x + u.y * u.y + u.z * u.z = 1) (hres : 2 ≤ res) :
    (((RibbonEmitter.init pos 1 res).run (path u (ticks 2 (1 / 10) 10))).map
        (fun r1 => r1.segs.map (fun g => g.len)) = some [4 / 5, 6 / 5] ∧
      ((RibbonEmitter.init pos 1 res).run (path u (ticks 2 (1 / 10) 10))).map
        (fun r1 => r1.segs.length) = some 2) ∧
    (((RibbonEmitter.init pos 1 res).run (path u (ticks 2 1 1))).map
        (fun r1 => r1.segs.map (fun g => g.len)) = some [2] ∧
      ((RibbonEmitter.init pos 1 res).run (path u (ticks 2 1 1))).map
        (fun r1 => r1.segs.length) = some 1) := by
  have h := ribbon_granularity pos u res hu hres
  exact ⟨⟨h.1, count_of_lens _ _ h.1⟩, ⟨h.2, count_of_lens _ _ h.2⟩⟩

/-- Witness of C9 (amended): anchor at `(1, 2, 3)`, direction `(3/5, 4/5, 0)`,
target length 3. -/
theorem segment_count_depends_on_granularity_witness :
    (((RibbonEmitter.init ⟨1, 2, 3⟩ 1 3).run
          (path ⟨3 / 5, 4 / 5, 0⟩ (ticks 2 (1 / 10) 10))).map
        (fun r1 => r1.segs.map (fun g => g.len)) = some [4 / 5, 6 / 5] ∧
      ((RibbonEmitter.init ⟨1, 2, 3⟩ 1 3).run
          (path ⟨3 / 5, 4 / 5, 0⟩ (ticks 2 (1 / 10) 10))).map
        (fun r1 => r1.segs.length) = some 2) ∧
    (((RibbonEmitter.init ⟨1, 2, 3⟩ 1 3).run (path ⟨3 / 5, 4 / 5, 0⟩ (ticks 2 1 1))).map
        (fun r1 => r1.segs.map (fun g => g.len)) = some [2] ∧
      ((RibbonEmitter.init ⟨1, 2, 3⟩ 1 3).run (path ⟨3 / 5, 4 / 5, 0⟩ (ticks 2 1 1))).map
        (fun r1 => r1.segs.length) = some 1) :=
  segment_count_depends_on_granularity ⟨1, 2, 3⟩ ⟨3 / 5, 4 / 5, 0⟩ 3 (by norm_num) (by norm_num)

/-! ## C10: the tile guard of draw -/

theorem drawLoop_takeWhile (tiles : List TexCoordSet) (quad : Particle → TexCoordSet → Quad)
    (hne : tiles ≠ []) (hsz : tiles.length < SIZE_T_MOD) :
    ∀ ps : List Particle,
      drawLoop tiles quad ps =
        some ((ps.takeWhile (fun p => decide (p.tile < tiles.length))).filterMap
          (fun p => (tiles.get? p.tile).map (quad p))) ∧
      ((ps.takeWhile (fun p => decide (p.tile < tiles.length))).filterMap
          (fun p => (tiles.get? p.tile).map (quad p))).length =
        (ps.takeWhile (fun p => decide (p.tile < tiles.length))).length := by
  have hpos : 0 < tiles.length := List.length_pos.mpr hne
  intro ps
  induction ps with
  | nil => simp [drawLoop]
  | cons p rest ih =>
    simp only [drawLoop, SIZE_T_MOD] at *
    by_cases hp : p.tile < tiles.length
    · have hg : ¬ ((tiles.length % 2 ^ 64 + 2 ^ 64 - 1) % 2 ^ 64 < p.tile) := by omega
      rw [if_neg hg]
      obtain ⟨t, ht⟩ : ∃ t, tiles.get? p.tile = some t :=
        ⟨tiles.get ⟨p.tile, hp⟩, List.get?_eq_get hp⟩
      have htw : (p :: rest).takeWhile (fun p => decide (p.tile < tiles.length)) =
          p :: rest.takeWhile (fun p => decide (p.tile < tiles.length)) := by
        simp [List.takeWhile, hp]
      have hfm : ∀ L : List Particle,
          (p :: L).filterMap (fun p => (tiles.get? p.tile).map (quad p)) =
            quad p t :: L.filterMap (fun p => (tiles.get? p.tile).map (quad p)) := by
        intro L
        rw [List.filterMap_cons_some]
        rw [ht]; rfl
      rw [ht, ih.1, htw, hfm]
      exact ⟨rfl, by rw [List.length_cons, List.length_cons, ih.2]⟩
    · have hg : (tiles.length % 2 ^ 64 + 2 ^ 64 - 1) % 2 ^ 64 < p.tile := by omega
      rw [if_pos hg]
      simp [List.takeWhile, hp]

/-- C10 (counterexample). With a one-tile table and the pool
`[tile 1, tile 0]` the guard leaves the loop at the first particle and no quad
is issued, although the second particle has a valid tile; with an empty table
`tiles.size() - 1` wraps around, the guard lets tile 0 pass and `tiles[0]` is
read past the end; for render type 3 there is no loop and no quad is issued. -/
theorem draw_breaks_at_bad_tile :
    draw (systemOf 0 [unitTile] [particleOf 1 2 1, particleOf 1 2 0]) (fun _ => 0) = some [] ∧
    (particleOf 1 2 0).tile < [unitTile].length ∧
    draw (systemOf 0 [] [particleOf 1 2 0]) (fun _ => 0) = none ∧
    draw { systemOf 0 [unitTile] [particleOf 1 2 0] with type := 3 } (fun _ => 0) = some [] := by
  refine ⟨?_, by simp [particleOf], ?_, ?_⟩
  · simp [draw, quadOf, systemOf, drawLoop, particleOf, SIZE_T_MOD]
  · simp [draw, quadOf, systemOf, drawLoop, particleOf, SIZE_T_MOD]
  · simp [draw, quadOf, systemOf]

/-- C10 (amended). For a system of render type 0, 1 or 2 with a non-empty tile
table, `draw` issues one quad for each particle that precedes the first particle
whose tile index is not below the size of the tile table, in pool order, each
built from the tile `tiles[tile]` read within bounds; the loop ends at that first
particle, which is not drawn, nor are the particles after it. -/
theorem draw_stops_at_first_bad_tile (s : ParticleSystem) (modelview : Nat → ℚ)
    (htype : s.type = 0 ∨ s.type = 1 ∨ s.type = 2)
    (hne : s.tiles ≠ []) (hsz : s.tiles.length < SIZE_T_MOD) :
    ∃ quad, quadOf s modelview = some quad ∧
      draw s modelview =
        some ((drawn s).filterMap (fun p => (s.tiles.get? p.tile).map (quad p))) ∧
      ((drawn s).filterMap (fun p => (s.tiles.get? p.tile).map (quad p))).length =
        (drawn s).length := by
  have hq : ∃ quad, quadOf s modelview = some quad := by
    unfold quadOf
    rcases htype with h | h | h
    · simp only [h, true_or, if_true]
      split_ifs <;> exact ⟨_, rfl⟩
    · simp [h]
    · simp only [h, or_true, if_true]
      split_ifs <;> exact ⟨_, rfl⟩
  obtain ⟨quad, hquad⟩ := hq
  refine ⟨quad, hquad, ?_, ?_⟩
  · unfold draw
    rw [hquad]
    exact (drawLoop_takeWhile s.tiles quad hne hsz s.particles).1
  · exact (drawLoop_takeWhile s.tiles quad hne hsz s.particles).2

/-- Witness of C10 (amended): a one-tile table and the pool `[tile 0, tile 1, tile 0]`;
only the first particle is drawn. -/
theorem draw_stops_at_first_bad_tile_witness :
    drawn (systemOf 0 [unitTile] [particleOf 1 2 0, particleOf 1 2 1, particleOf 1 2 0]) =
      [particleOf 1 2 0] ∧
    ∃ quad, quadOf (systemOf 0 [unitTile]
        [particleOf 1 2 0, particleOf 1 2 1, particleOf 1 2 0]) (fun _ => 0) = some quad ∧
      draw (systemOf 0 [unitTile] [particleOf 1 2 0, particleOf 1 2 1, particleOf 1 2 0])
          (fun _ => 0) =
        some ((drawn (systemOf 0 [unitTile]
            [particleOf 1 2 0, particleOf 1 2 1, particleOf 1 2 0])).filterMap
          (fun p => ((systemOf 0 [unitTile]
            [particleOf 1 2 0, particleOf 1 2 1, particleOf 1 2 0]).tiles.get? p.tile).map
              (quad p))) ∧
      ((drawn (systemOf 0 [unitTile]
            [particleOf 1 2 0, particleOf 1 2 1, particleOf 1 2 0])).filterMap
          (fun p => ((systemOf 0 [unitTile]
            [particleOf 1 2 0, particleOf 1 2 1, particleOf 1 2 0]).tiles.get? p.tile).map
              (quad p))).length =
        (drawn (systemOf 0 [unitTile]
            [particleOf 1 2 0, particleOf 1 2 1, particleOf 1 2 0])).length :=
  ⟨by simp [drawn, systemOf, particleOf, List.takeWhile],
    draw_stops_at_first_bad_tile
      (systemOf 0 [unitTile] [particleOf 1 2 0, particleOf 1 2 1, particleOf 1 2 0])
      (fun _ => 0) (Or.inl rfl) (by simp [systemOf]) (by simp [systemOf, SIZE_T_MOD])⟩

/-! ## C11: emitter selection in the constructor -/

/-- C11. The constructor builds a system with the plane emitter when
`EmitterType` is 1 and with the sphere emitter when it is 2 (with `rem = 0` and
an empty pool), and for every other `EmitterType` it throws and builds no
system. -/
theorem construct_selects_emitter (mta : ModelParticleEmitterDef) :
    (mta.EmitterType = 1 →
      ∃ s, ParticleSystem.construct mta = Except.ok s ∧ s.emitter = some EmitterKind.plane ∧
        s.rem = 0 ∧ s.particles = []) ∧
    (mta.EmitterType = 2 →
      ∃ s, ParticleSystem.construct mta = Except.ok s ∧ s.emitter = some EmitterKind.sphere ∧
        s.rem = 0 ∧ s.particles = []) ∧
    (mta.EmitterType ≠ 1 → mta.EmitterType ≠ 2 →
      ParticleSystem.construct mta = Except.error ConstructError.unimplementedEmitterType ∧
      ∀ s, ParticleSystem.construct mta ≠ Except.ok s) := by
  refine ⟨?_, ?_, ?_⟩
  · intro h
    exact ⟨constructed mta EmitterKind.plane, by simp [ParticleSystem.construct, h],
      rfl, rfl, rfl⟩
  · intro h
    exact ⟨constructed mta EmitterKind.sphere, by simp [ParticleSystem.construct, h],
      rfl, rfl, rfl⟩
  · intro h1 h2
    have : ParticleSystem.construct mta =
        Except.error ConstructError.unimplementedEmitterType := by
      simp [ParticleSystem.construct, h1, h2]
    refine ⟨this, ?_⟩
    intro s hs
    rw [this] at hs
    cases hs

/-- Witness of C11: emitter definitions with `EmitterType` 1, 2, 0 and 3. -/
theorem construct_selects_emitter_witness :
    (∃ s, ParticleSystem.construct (emitterDef 1) = Except.ok s ∧
      s.emitter = some EmitterKind.plane ∧ s.rem = 0 ∧ s.particles = []) ∧
    (∃ s, ParticleSystem.construct (emitterDef 2) = Except.ok s ∧
      s.emitter = some EmitterKind.sphere ∧ s.rem = 0 ∧ s.particles = []) ∧
    ParticleSystem.construct (emitterDef 0) =
      Except.error ConstructError.unimplementedEmitterType ∧
    ParticleSystem.construct (emitterDef 3) =
      Except.error ConstructError.unimplementedEmitterType :=
  ⟨(construct_selects_emitter (emitterDef 1)).1 rfl,
    (construct_selects_emitter (emitterDef 2)).2.1 rfl,
    ((construct_selects_emitter (emitterDef 0)).2.2 (by decide) (by decide)).1,
    ((construct_selects_emitter (emitterDef 3)).2.2 (by decide) (by decide)).1⟩

/-! ## C12: moving the lead segment -/

theorem trimLoop_noop (length : ℚ) :
    ∀ (segs : List RibbonSegment) (l : ℚ), (∀ g ∈ segs, 0 ≤ g.len) →
      l + chainLength segs ≤ length → trimLoop length l false segs = some segs := by
  intro segs
  induction segs with
  | nil => intro l _ _; simp [trimLoop]
  | cons g rest ih =>
    intro l hpos hsum
    have hrest : 0 ≤ chainLength rest := by
      unfold chainLength
      apply List.sum_nonneg
      intro x hx
      obtain ⟨g1, hg1, rfl⟩ := List.mem_map.mp hx
      exact hpos g1 (List.mem_cons_of_mem _ hg1)
    simp only [chainLength, List.map_cons, List.sum_cons] at hsum
    simp only [chainLength] at hrest
    simp only [trimLoop]
    rw [if_neg (by linarith), ih (l + g.len) (fun y hy => hpos y (List.mem_cons_of_mem _ hy))
      (by simp only [chainLength]; linarith)]
    rfl

/-- C12. In `setup`, with `d` the distance between the new anchor position
`parent->mat * pos` and the previous one `tpos`, and `first :: rest` the chain:
if `first.len > seglen`, the chain before trimming is a new segment with
`pos =` new anchor, `up =` new up vector and `len = d`, followed by the old lead
with `len0 = len`, `back = normalize (tpos - new anchor)` and its `len`, `pos`
and `up` unchanged, followed by `rest` (one segment more); otherwise it is the
old lead with `len + d`, `pos` and `up` replaced by the new anchor and up vector
and `back`, `len0` unchanged, followed by `rest` (no segment added). `setup`
returns the outcome of the trimming loop on that chain, which is that chain
itself when its lengths are non-negative and sum to at most `length`. -/
theorem setup_moves_lead (r : RibbonEmitter) (a : Anchor) (first : RibbonSegment)
    (rest : List RibbonSegment) (hsegs : r.segs = first :: rest) :
    (first.len > r.seglen →
      moveFirst r.seglen r.tpos (a.mat r.pos)
          ((a.mat (r.pos + ⟨0, 0, 1⟩)) - (a.mat r.pos)).normalize
          ((a.mat r.pos) - r.tpos).length first rest =
        { pos := a.mat r.pos, up := ((a.mat (r.pos + ⟨0, 0, 1⟩)) - (a.mat r.pos)).normalize,
          back := ⟨0, 0, 0⟩, len := ((a.mat r.pos) - r.tpos).length, len0 := 0 } ::
        { pos := first.pos, up := first.up, back := (r.tpos - a.mat r.pos).normalize,
          len := first.len, len0 := first.len } :: rest) ∧
    (¬ first.len > r.seglen →
      moveFirst r.seglen r.tpos (a.mat r.pos)
          ((a.mat (r.pos + ⟨0, 0, 1⟩)) - (a.mat r.pos)).normalize
          ((a.mat r.pos) - r.tpos).length first rest =
        { pos := a.mat r.pos, up := ((a.mat (r.pos + ⟨0, 0, 1⟩)) - (a.mat r.pos)).normalize,
          back := first.back, len := first.len + ((a.mat r.pos) - r.tpos).length,
          len0 := first.len0 } :: rest) ∧
    (r.setup a).map (fun r1 => r1.segs) =
      trimLoop r.length 0 false
        (moveFirst r.seglen r.tpos (a.mat r.pos)
          ((a.mat (r.pos + ⟨0, 0, 1⟩)) - (a.mat r.pos)).normalize
          ((a.mat r.pos) - r.tpos).length first rest) ∧
    ((∀ g ∈ moveFirst r.seglen r.tpos (a.mat r.pos)
          ((a.mat (r.pos + ⟨0, 0, 1⟩)) - (a.mat r.pos)).normalize
          ((a.mat r.pos) - r.tpos).length first rest, 0 ≤ g.len) →
      chainLength (moveFirst r.seglen r.tpos (a.mat r.pos)
          ((a.mat (r.pos + ⟨0, 0, 1⟩)) - (a.mat r.pos)).normalize
          ((a.mat r.pos) - r.tpos).length first rest) ≤ r.length →
      (r.setup a).map (fun r1 => r1.segs) =
        some (moveFirst r.seglen r.tpos (a.mat r.pos)
          ((a.mat (r.pos + ⟨0, 0, 1⟩)) - (a.mat r.pos)).normalize
          ((a.mat r.pos) - r.tpos).length first rest)) := by
  have hset : (r.setup a).map (fun r1 => r1.segs) =
      trimLoop r.length 0 false
        (moveFirst r.seglen r.tpos (a.mat r.pos)
          ((a.mat (r.pos + ⟨0, 0, 1⟩)) - (a.mat r.pos)).normalize
          ((a.mat r.pos) - r.tpos).length first rest) := by
    unfold RibbonEmitter.setup
    rw [hsegs]
    simp only
    cases trimLoop r.length 0 false
        (moveFirst r.seglen r.tpos (a.mat r.pos)
          ((a.mat (r.pos + ⟨0, 0, 1⟩)) - (a.mat r.pos)).normalize
          ((a.mat r.pos) - r.tpos).length first rest) <;> rfl
  refine ⟨?_, ?_, hset, ?_⟩
  · intro h
    unfold moveFirst
    rw [if_pos h]
    rfl
  · intro h
    unfold moveFirst
    rw [if_neg h]
  · intro hpos hsum
    rw [hset]
    exact trimLoop_noop r.length _ 0 hpos (by linarith)

theorem length_x (d : ℚ) : (Vec3.mk d 0 0).length = |d| := by
  unfold Vec3.length
  simp only [mul_zero, add_zero]
  exact Rat.sqrt_eq d

/-- Witness of C12. Lead of `len = 3/2 > seglen = 1`, anchor moving on by 1: the
chain becomes a new lead at the new anchor with `len = 1` in front of the old
lead, which keeps `len = 3/2` and gets `len0 = 3/2`. Lead of `len = 1/2`,
anchor moving on by 1/2: the chain stays one segment, moved to the new anchor,
with `len = 1`. -/
theorem setup_moves_lead_witness :
    ((ribbonAt (3 / 2) (3 / 2)).setup (translated ⟨5 / 2, 0, 0⟩)).map
        (fun r1 => r1.segs.map (fun g => (g.pos, g.len, g.len0))) =
      some [(⟨5 / 2, 0, 0⟩, 1, 0), (⟨3 / 2, 0, 0⟩, 3 / 2, 3 / 2)] ∧
    ((ribbonAt (1 / 2) (1 / 2)).setup (translated ⟨1, 0, 0⟩)).map
        (fun r1 => r1.segs.map (fun g => (g.pos, g.len, g.len0))) =
      some [(⟨1, 0, 0⟩, 1, 0)] := by
  have hA := setup_moves_lead (ribbonAt (3 / 2) (3 / 2)) (translated ⟨5 / 2, 0, 0⟩)
    { pos := ⟨3 / 2, 0, 0⟩, up := ⟨0, 0, 1⟩, back := ⟨0, 0, 0⟩, len := 3 / 2, len0 := 0 } [] rfl
  have hB := setup_moves_lead (ribbonAt (1 / 2) (1 / 2)) (translated ⟨1, 0, 0⟩)
    { pos := ⟨1 / 2, 0, 0⟩, up := ⟨0, 0, 1⟩, back := ⟨0, 0, 0⟩, len := 1 / 2, len0 := 0 } [] rfl
  have hdA : (((translated ⟨5 / 2, 0, 0⟩).mat (ribbonAt (3 / 2) (3 / 2)).pos) -
      (ribbonAt (3 / 2) (3 / 2)).tpos).length = 1 := by
    have : ((translated ⟨5 / 2, 0, 0⟩).mat (ribbonAt (3 / 2) (3 / 2)).pos) -
        (ribbonAt (3 / 2) (3 / 2)).tpos = Vec3.mk 1 0 0 := by
      norm_num [translated, ribbonAt, RibbonEmitter.init]
    rw [this, length_x]; norm_num
  have hdB : (((translated ⟨1, 0, 0⟩).mat (ribbonAt (1 / 2) (1 / 2)).pos) -
      (ribbonAt (1 / 2) (1 / 2)).tpos).length = 1 / 2 := by
    have : ((translated ⟨1, 0, 0⟩).mat (ribbonAt (1 / 2) (1 / 2)).pos) -
        (ribbonAt (1 / 2) (1 / 2)).tpos = Vec3.mk (1 / 2) 0 0 := by
      norm_num [translated, ribbonAt, RibbonEmitter.init]
    rw [this, length_x]; exact abs_of_pos (by norm_num)
  constructor
  · have h1 := hA.1 (by norm_num [ribbonAt, RibbonEmitter.init])
    have h4 := hA.2.2.2
    rw [h1, hdA] at h4
    have h5 := h4 (by intro g hg; simp at hg; rcases hg with rfl | rfl <;> norm_num)
      (by norm_num [chainLength, ribbonAt, RibbonEmitter.init])
    cases hr : (ribbonAt (3 / 2) (3 / 2)).setup (translated ⟨5 / 2, 0, 0⟩) with
    | none => rw [hr] at h5; simp at h5
    | some r1 =>
      rw [hr] at h5
      simp only [Option.map_some', Option.some.injEq] at h5 ⊢
      rw [h5]
      norm_num [translated, ribbonAt, RibbonEmitter.init]
  · have h1 := hB.2.1 (by norm_num [ribbonAt, RibbonEmitter.init])
    have h4 := hB.2.2.2
    rw [h1, hdB] at h4
    have h5 := h4 (by intro g hg; simp at hg; rcases hg with rfl; norm_num)
      (by norm_num [chainLength, ribbonAt, RibbonEmitter.init])
    cases hr : (ribbonAt (1 / 2) (1 / 2)).setup (translated ⟨1, 0, 0⟩) with
    | none => rw [hr] at h5; simp at h5
    | some r1 =>
      rw [hr] at h5
      simp only [Option.map_some', Option.some.injEq] at h5 ⊢
      rw [h5]
      norm_num [translated, ribbonAt, RibbonEmitter.init]

/-! ## C13: integration of a particle -/

theorem vec3_step (v a b : Vec3) (g d dt : ℚ) :
    v + (a * g * dt - b * d * dt) = v + (a * g - b * d) * dt := by
  cases v; cases a; cases b
  simp only [vec3_mul_mk, vec3_sub_mk, vec3_add_mk, Vec3.mk.injEq]
  refine ⟨?_, ?_, ?_⟩ <;> ring

theorem vec3_mul_one (v : Vec3) : v * (1 : ℚ) = v := by
  cases v; simp

/-- C13. The loop body of `update` takes a particle with velocity `v` to the
velocity `v + (down*gravity - dir*deacceleration)*dt`, whatever `slowdown` is
(the stored velocity is never scaled); with `slowdown <= 0` the new position is
`pos + (new velocity)*dt`; with `slowdown > 0` the position step is scaled by
`expf(-slowdown*life)` with the life before the increment; the new life is
`life + dt`; `maxlife`, `dir`, `down`, `origin`, `tile` and the corners are
unchanged. Every state that `update` returns has as its pool the pool after the
spawn block with this step applied to each particle. -/
theorem advance_integrates (e : Sample) (s : ParticleSystem) (dt : ℚ) (p : Particle) :
    (advance e s dt p).speed = p.speed + (p.down * e.grav - p.dir * e.deaccel) * dt ∧
    (s.slowdown ≤ 0 → (advance e s dt p).pos = p.pos + (advance e s dt p).speed * dt) ∧
    (0 < s.slowdown →
      (advance e s dt p).pos =
        p.pos + (advance e s dt p).speed * e.expf (-(s.slowdown * p.life)) * dt) ∧
    (advance e s dt p).life = p.life + dt ∧
    (advance e s dt p).maxlife = p.maxlife ∧
    (advance e s dt p).dir = p.dir ∧
    (advance e s dt p).down = p.down ∧
    (advance e s dt p).origin = p.origin ∧
    (advance e s dt p).tile = p.tile ∧
    (advance e s dt p).corners = p.corners ∧
    (∀ s1, update e s dt = some s1 →
      s1.particles = (spawn e s dt).particles.map (advance e s dt)) := by
  have hneg : -1 * s.slowdown * p.life = -(s.slowdown * p.life) := by ring
  refine ⟨?_, ?_, ?_, rfl, rfl, rfl, rfl, rfl, rfl, rfl, ?_⟩
  · simp only [advance]
    exact vec3_step _ _ _ _ _ _
  · intro h
    simp only [advance]
    rw [if_neg (not_lt.mpr h), vec3_mul_one]
  · intro h
    simp only [advance]
    rw [if_pos h, hneg]
  · intro s1 hu
    obtain ⟨ps, hi, rfl⟩ := update_eq_some e s s1 dt hu
    exact ((integrate_eq_some_iff e s dt _ ps).mp hi).2

/-- Witness of C13: a particle at rest at the origin, gravity 10 along
`down = (0, -1, 0)`, deacceleration 1 along `dir = (0, 1, 0)`, `dt = 1/2`: the
new velocity is `(0, -11/2, 0)`; without slowdown the new position is
`(0, -11/4, 0)`; with `slowdown = 1` and `expf` returning 1/2 it is
`(0, -11/8, 0)`; and the pool after `update` is the stepped particle. -/
theorem advance_integrates_witness :
    (advance fallingSample (systemOf 0 [] []) (1 / 2) (particleOf 0 2 0)).speed =
      ⟨0, -11 / 2, 0⟩ ∧
    (advance fallingSample (systemOf 0 [] []) (1 / 2) (particleOf 0 2 0)).pos =
      ⟨0, -11 / 4, 0⟩ ∧
    (advance fallingSample { systemOf 0 [] [] with slowdown := 1 } (1 / 2)
      (particleOf 0 2 0)).pos = ⟨0, -11 / 8, 0⟩ ∧
    (∃ s1, update fallingSample (systemOf 0 [] [particleOf 0 2 0]) (1 / 2) = some s1 ∧
      s1.particles =
        [advance fallingSample (systemOf 0 [] [particleOf 0 2 0]) (1 / 2) (particleOf 0 2 0)]) := by
  have h := advance_integrates fallingSample (systemOf 0 [] []) (1 / 2) (particleOf 0 2 0)
  have h1 := advance_integrates fallingSample { systemOf 0 [] [] with slowdown := 1 } (1 / 2)
    (particleOf 0 2 0)
  have h2 := advance_integrates fallingSample (systemOf 0 [] [particleOf 0 2 0]) (1 / 2)
    (particleOf 0 2 0)
  have hv : (advance fallingSample (systemOf 0 [] []) (1 / 2) (particleOf 0 2 0)).speed =
      ⟨0, -11 / 2, 0⟩ := by
    rw [h.1]; norm_num [fallingSample, sampleOf, particleOf]
  have hv1 : (advance fallingSample { systemOf 0 [] [] with slowdown := 1 } (1 / 2)
      (particleOf 0 2 0)).speed = ⟨0, -11 / 2, 0⟩ := by
    rw [h1.1]; norm_num [fallingSample, sampleOf, particleOf]
  refine ⟨hv, ?_, ?_, ?_⟩
  · rw [h.2.1 (by norm_num [systemOf]), hv]
    norm_num [particleOf]
  · rw [h1.2.2.1 (by norm_num [systemOf]), hv1]
    norm_num [particleOf, fallingSample]
  · have hf : ftospawn fallingSample (systemOf 0 [] [particleOf 0 2 0]) (1 / 2) = 0 := by
      norm_num [ftospawn, fallingSample, sampleOf, systemOf]
    have hs := spawn_below_one fallingSample (systemOf 0 [] [particleOf 0 2 0]) (1 / 2) rfl
      (by rw [hf]) (by rw [hf]; norm_num)
    have hi : integrate fallingSample (systemOf 0 [] [particleOf 0 2 0]) (1 / 2)
        [particleOf 0 2 0] =
        some [advance fallingSample (systemOf 0 [] [particleOf 0 2 0]) (1 / 2)
          (particleOf 0 2 0)] := by
      rw [integrate_eq_some_iff]
      refine ⟨?_, rfl⟩
      intro q hq
      rw [List.mem_singleton] at hq
      subst hq
      norm_num [rlife, advance, particleOf]
    have hu := update_from_spawn fallingSample (systemOf 0 [] [particleOf 0 2 0]) _ (1 / 2) _
      hs hi
    refine ⟨_, hu, ?_⟩
    rw [h2.2.2.2.2.2.2.2.2.2.2 _ hu, hs]
    rfl

end Noggit
